import Mathlib

/-!
Shallow embedding of the course-scheduling engine of the
`sistema-programacao-cursos` repository, together with theorems that settle
the frozen claims about it.  Pure Python functions are translated into
executable Lean functions; JSON dict payloads are modelled as structures in
which the empty string (resp. the empty list) stands for a missing or falsy
field, fractional hours are modelled by `ℚ`, and `datetime.date` values are
modelled by year/month/day triples with Gregorian calendar arithmetic
matching Python's `datetime` module.
-/

/-! ## Gregorian date arithmetic (model of Python `datetime.date`) -/

/-- Gregorian leap-year test, as used by Python's `datetime`. -/
def isLeapYear (y : Nat) : Bool :=
  y % 4 == 0 && (y % 100 != 0 || y % 400 == 0)

/-- Number of days of month `m` (1..12) of year `y`. -/
def daysInMonth (y m : Nat) : Nat :=
  if m == 2 then (if isLeapYear y then 29 else 28)
  else if m == 4 || m == 6 || m == 9 || m == 11 then 30
  else 31

/-- Number of days of year `y`. -/
def yearLength (y : Nat) : Nat :=
  if isLeapYear y then 366 else 365

/-- Days of year `y` that lie strictly before month `m`. -/
def daysBeforeMonth (y m : Nat) : Nat :=
  ((List.range' 1 (m - 1)).map (daysInMonth y)).sum

/-- A calendar date, as stored by Python's `datetime.date` (year, month, day). -/
structure Ymd where
  y : Nat
  m : Nat
  d : Nat
deriving DecidableEq, Repr

/-- Proleptic-Gregorian ordinal of 01/01 of year `y`
(`date(y, 1, 1).toordinal()`); 01/01/0001 has ordinal 1. -/
def ordOfJan1 (y : Nat) : Nat :=
  let a := y - 1
  365 * a + (a / 4 - a / 100) + a / 400 + 1

/-- `date.toordinal()`: days since 31/12/0000. -/
def Ymd.toOrd (x : Ymd) : Nat :=
  ordOfJan1 x.y + daysBeforeMonth x.y x.m + (x.d - 1)

/-- `date.weekday()`: 0 = Monday .. 6 = Sunday. -/
def Ymd.weekday (x : Ymd) : Nat :=
  (x.toOrd + 6) % 7

/-- Python `date` comparison `a <= b` (lexicographic on year, month, day). -/
def Ymd.leb (a b : Ymd) : Bool :=
  a.y < b.y || (a.y == b.y && (a.m < b.m || (a.m == b.m && a.d ≤ b.d)))

/-- Python `date` comparison `a < b`. -/
def Ymd.ltb (a b : Ymd) : Bool :=
  a.y < b.y || (a.y == b.y && (a.m < b.m || (a.m == b.m && a.d < b.d)))

/-- `a + timedelta(days=1)` on a calendar date. -/
def Ymd.nextDay (x : Ymd) : Ymd :=
  if x.d < daysInMonth x.y x.m then ⟨x.y, x.m, x.d + 1⟩
  else if x.m < 12 then ⟨x.y, x.m + 1, 1⟩
  else ⟨x.y + 1, 1, 1⟩

/-- `a + timedelta(days=k)` on a calendar date. -/
def Ymd.addDays (x : Ymd) (k : Nat) : Ymd :=
  Ymd.nextDay^[k] x

/-- `max` of two dates under Python date comparison. -/
def Ymd.maxD (a b : Ymd) : Ymd := if Ymd.leb a b then b else a

/-- `min` of two dates under Python date comparison. -/
def Ymd.minD (a b : Ymd) : Ymd := if Ymd.leb a b then a else b

/-- Is `⟨y, m, d⟩` a real calendar date (as `datetime.date` would accept)? -/
def validYmd (x : Ymd) : Bool :=
  1 ≤ x.y && 1 ≤ x.m && x.m ≤ 12 && 1 ≤ x.d && x.d ≤ daysInMonth x.y x.m

/-- Month and day-of-month of the `doy`-th day (1-based) of year `y`,
scanning the months in order starting from month `m`; the first argument
counts the months still available after `m` (so it is `12 - m`, and the scan
stops in month 12 at the latest). -/
def monthDayOfDoyAux (y : Nat) : Nat → Nat → Nat → Nat × Nat
  | 0, m, doy => (m, doy)
  | k + 1, m, doy =>
    let len := daysInMonth y m
    if doy ≤ len then (m, doy) else monthDayOfDoyAux y k (m + 1) (doy - len)

/-- Month and day-of-month of the `doy`-th day (1-based) of year `y`. -/
def monthDayOfDoy (y doy : Nat) : Nat × Nat :=
  monthDayOfDoyAux y 11 1 doy

/-- The date of year `y` whose day-of-year is `doy`. -/
def ymdOfDoy (y doy : Nat) : Ymd :=
  let md := monthDayOfDoy y doy
  ⟨y, md.1, md.2⟩

/-- Day-of-year (1-based) of a date. -/
def Ymd.doy (x : Ymd) : Nat :=
  daysBeforeMonth x.y x.m + x.d

/-! ## Parsing (`datetime.strptime` with formats `%d/%m/%Y` and `%H:%M`) -/

/-- Is a string a non-empty run of ASCII digits of length at most `k`? -/
def digitRun (s : String) (k : Nat) : Bool :=
  s.length ≥ 1 && s.length ≤ k && s.toList.all (·.isDigit)

/-- `datetime.strptime(raw, "%d/%m/%Y").date()`: `none` models the
`ValueError` branch.  `%d` and `%m` match one or two digits, `%Y` up to four;
the triple must form a real calendar date. -/
def strptimeDate (raw : String) : Option Ymd :=
  match raw.splitOn "/" with
  | [ds, ms, ys] =>
    if digitRun ds 2 && digitRun ms 2 && digitRun ys 4 then
      let x : Ymd := ⟨ys.toNat!, ms.toNat!, ds.toNat!⟩
      if validYmd x then some x else none
    else none
  | _ => none

/-- A time of day (hour, minute), as Python `datetime.time`. -/
structure Hm where
  hour : Nat
  minute : Nat
deriving DecidableEq, Repr

/-- `datetime.strptime(raw, "%H:%M").time()`: `none` models `ValueError`. -/
def strptimeTime (raw : String) : Option Hm :=
  match raw.splitOn ":" with
  | [hs, ms] =>
    if digitRun hs 2 && digitRun ms 2 && hs.toNat! ≤ 23 && ms.toNat! ≤ 59 then
      some ⟨hs.toNat!, ms.toNat!⟩
    else none
  | _ => none

/-- Python `time` comparison `a < b`. -/
def Hm.ltb (a b : Hm) : Bool :=
  a.hour < b.hour || (a.hour == b.hour && a.minute < b.minute)

/-- Minutes since midnight (`hour * 60 + minute`). -/
def Hm.minutes (a : Hm) : Nat := a.hour * 60 + a.minute

/-! ## `app/main.py`: calendar sanitisation and the end-date calculator -/

/-- `_sanitize_days_list` (main.py): keep the integer entries that lie in
1..31.  The stored calendar day numbers are modelled as integers. -/
def sanitize_days_list (items : List Int) : List Int :=
  items.filter (fun v => 1 ≤ v && v ≤ 31)

/-- A year's calendar record as consumed by the end-date calculator:
the `dias_letivos_por_mes` field, one list of day numbers per month. -/
structure Calendario where
  dias_letivos_por_mes : List (List Int)
deriving Repr

/-- The weekday map of `_calculate_end_date` (main.py): token → Monday-based
index.  The source's literal sixth key is the mojibake spelling
`"SÃ\u0081B"` alongside `"SAB"`. -/
def weekdayMapMain (s : String) : Option Nat :=
  if s = "SEG" then some 0
  else if s = "TER" then some 1
  else if s = "QUA" then some 2
  else if s = "QUI" then some 3
  else if s = "SEX" then some 4
  else if s = "SÃ\u0081B" then some 5
  else if s = "SAB" then some 5
  else none

/-- The day-by-day walk of `_calculate_end_date`, with the current date
represented by its day-of-year `doy` in the fixed `year`; the first argument
is the number of days of the year not yet visited (`yearLength year + 1 - doy`
at the entry point), so that it reaches `0` exactly when the Python loop
condition `current.year == year` turns false.  `sel` is the selected
weekday-index set, `monthSets` the sanitised teaching-day set per month,
`needed` the total of qualifying days to accumulate, `counted` the qualifying
days already accumulated. -/
def endDateWalk (year : Nat) (sel : List Nat) (monthSets : List (List Int))
    (needed : Nat) : Nat → Nat → Nat → Except String Ymd
  | 0, _doy, _counted =>
    .error "NÃ£o hÃ¡ dias letivos suficientes no calendÃ¡rio para o perÃ­odo informado."
  | fuel + 1, doy, counted =>
    let md := monthDayOfDoy year doy
    if sel.contains ((ymdOfDoy year doy).weekday) &&
        (monthSets.getD (md.1 - 1) []).contains (md.2 : Int) then
      if counted + 1 ≥ needed then .ok (ymdOfDoy year doy)
      else endDateWalk year sel monthSets needed fuel (doy + 1) (counted + 1)
    else endDateWalk year sel monthSets needed fuel (doy + 1) counted

/-- `_calculate_end_date` (main.py).  The `(Optional[date], Optional[str])`
result is modelled as `Except String Ymd`; hour quantities are modelled
as rationals. -/
def calculate_end_date (year : Nat) (start_date_raw : String)
    (days_execucao : List String) (ch_total hs_dia : ℚ)
    (calendario : Option Calendario) : Except String Ymd :=
  match calendario with
  | none => .error "CalendÃ¡rio nÃ£o encontrado para o ano informado."
  | some cal =>
    if start_date_raw = "" then .error "Informe a data inicial."
    else if days_execucao = [] then .error "Selecione ao menos um dia de execuÃ§Ã£o."
    else if ch_total ≤ 0 ∨ hs_dia ≤ 0 then
      .error "Carga horÃ¡ria e horas/dia devem ser maiores que zero."
    else
      match strptimeDate start_date_raw with
      | none => .error "Data inicial invÃ¡lida."
      | some start_date =>
        if start_date.y ≠ year then
          .error "Ano e data inicial precisam estar no mesmo ano."
        else
          -- `selected_weekdays` is the Python set of weekday indices; only its
          -- membership and emptiness are consumed, so it is kept as a list.
          let selected_weekdays := days_execucao.filterMap weekdayMapMain
          if selected_weekdays = [] then .error "Dias de execuÃ§Ã£o invÃ¡lidos."
          else
            let month_sets := cal.dias_letivos_por_mes.map sanitize_days_list
            let total_days_needed : Int := ⌈ch_total / hs_dia⌉
            if total_days_needed ≤ 0 then
              .error "NÃ£o foi possÃ­vel calcular o total de dias."
            else
              endDateWalk year selected_weekdays month_sets
                total_days_needed.toNat (yearLength year + 1 - start_date.doy)
                start_date.doy 0

/-! ## Small string helpers (models of the Python `str` methods used) -/

/-- Numeric value of a run of ASCII digits. -/
def natOfDigits (l : List Char) : Nat :=
  l.foldl (fun n c => n * 10 + (c.toNat - 48)) 0

/-- Python `str.upper()` restricted to the characters that occur in this
domain's tokens (ASCII plus the accented `á` of `SÁB`). -/
def pyUpper (s : String) : String :=
  ⟨s.data.map (fun c => if c = 'á' then 'Á' else c.toUpper)⟩

/-- Python `str.lower()` on the ASCII tokens used by the engine. -/
def pyLower (s : String) : String :=
  ⟨s.data.map Char.toLower⟩

/-- `str.replace(a, b)` for a one-character pattern and replacement. -/
def charReplace (a b : Char) (s : String) : String :=
  ⟨s.data.map (fun c => if c = a then b else c)⟩

/-- Python `int(s)` on a decimal string: surrounding whitespace, an optional
sign, then digits; `none` models the `ValueError` branch. -/
def pyIntOfString (s : String) : Option Int :=
  match s.trim.data with
  | [] => none
  | '-' :: rest =>
    if rest ≠ [] ∧ rest.all Char.isDigit then some (-(natOfDigits rest : Int)) else none
  | '+' :: rest =>
    if rest ≠ [] ∧ rest.all Char.isDigit then some (natOfDigits rest : Int) else none
  | l => if l.all Char.isDigit then some (natOfDigits l : Int) else none

/-- First-occurrence deduplication: the content of a Python set built by
inserting the elements of `l` in order (used where only the set's content is
consumed). -/
def dedupFirst {α : Type} [BEq α] (l : List α) : List α :=
  l.foldl (fun acc x => if acc.contains x then acc else acc ++ [x]) []

/-- `f"{n:02d}"` for a non-negative value (also `strftime`'s `%d`/`%m`). -/
def pad2 (n : Nat) : String :=
  if n < 10 then "0" ++ toString n else toString n

/-! ## Data model of the JSON collections consumed by `src/schedules.py` -/

/-- A collaborator record (`instructors.json`) as read by the scheduling
engine: `id`, `role` and the optional weekly-hour cap `max_horas_semana`
(hours, modelled as an exact rational).  The empty string stands for a
missing field. -/
structure Instrutor where
  id : String := ""
  role : String := ""
  max_horas_semana : Option ℚ := none
deriving DecidableEq, Repr

/-- An availability record (`instructor_availability.json`) as consumed by
`get_by_context`: its composite-key `id` string and its declared slot list. -/
structure AvailRecord where
  id : String := ""
  slots : List String := []
deriving DecidableEq, Repr

/-- A schedule ("offering") payload or stored record.  Each string field
models the corresponding JSON dict entry, with `""` standing for a missing
or falsy value and `[]` for a missing list. -/
structure Sched where
  id : String := ""
  ano : String := ""
  mes : String := ""
  curso_id : String := ""
  instrutor_id : String := ""
  instrutor_ids : List String := []
  analista_id : String := ""
  assistente_id : String := ""
  sala_id : String := ""
  pavimento : String := ""
  qtd_alunos : String := ""
  turno_id : String := ""
  data_inicio : String := ""
  data_fim : String := ""
  ch_total : String := ""
  hora_inicio : String := ""
  hora_fim : String := ""
  turma : String := ""
  dias_execucao : List String := []
deriving DecidableEq, Repr

/-- The JSON file collections read by the schedule engine.  Courses, rooms
and shifts are consulted only for id existence, so each is kept as its list
of ids. -/
structure Stores where
  courses : List String := []
  instructors : List Instrutor := []
  rooms : List String := []
  shifts : List String := []
  availability : List AvailRecord := []
  schedules : List Sched := []
deriving Repr

/-- `find_item` (storage.py) on the instructors collection. -/
def find_instrutor (items : List Instrutor) (item_id : String) : Option Instrutor :=
  items.find? (fun it => it.id == item_id)

/-- `find_item` (storage.py) on the schedules collection. -/
def find_sched (items : List Sched) (item_id : String) : Option Sched :=
  items.find? (fun it => it.id == item_id)

/-- The falsiness test of `require_fields` over `REQUIRED_FIELDS`
(schedules.py), in source order. -/
def sched_missing_fields (p : Sched) : List String :=
  ([("id", p.id == ""), ("ano", p.ano == ""), ("mes", p.mes == ""),
    ("curso_id", p.curso_id == ""), ("instrutor_id", p.instrutor_id == ""),
    ("analista_id", p.analista_id == ""), ("sala_id", p.sala_id == ""),
    ("pavimento", p.pavimento == ""), ("qtd_alunos", p.qtd_alunos == ""),
    ("turno_id", p.turno_id == ""), ("data_inicio", p.data_inicio == ""),
    ("data_fim", p.data_fim == ""), ("ch_total", p.ch_total == ""),
    ("hora_inicio", p.hora_inicio == ""), ("hora_fim", p.hora_fim == ""),
    ("turma", p.turma == ""), ("dias_execucao", p.dias_execucao.isEmpty)]).filterMap
    (fun x => if x.2 then some x.1 else none)

/-- `require_fields` (storage.py) for a schedule payload. -/
def require_sched_fields (p : Sched) : Except String Unit :=
  let missing := sched_missing_fields p
  if missing = [] then .ok ()
  else .error ("Campos obrigatórios ausentes: " ++ String.intercalate ", " missing)

/-- `ensure_unique_id` (storage.py) on the schedules collection. -/
def ensure_unique_id (items : List Sched) (item_id : String) : Except String Unit :=
  if items.any (fun it => it.id == item_id) then .error ("ID já cadastrado: " ++ item_id)
  else .ok ()

/-! ## `src/schedules.py`: parsing, normalisation and validators -/

/-- `_parse_date` (schedules.py). -/
def parse_date (raw : String) : Except String Ymd :=
  match strptimeDate raw with
  | some x => .ok x
  | none => .error ("Data invÃ¡lida: " ++ raw)

/-- `date.strftime("%d/%m/%Y")`. -/
def strftimeDate (x : Ymd) : String :=
  pad2 x.d ++ "/" ++ pad2 x.m ++ "/" ++ toString x.y

/-- `_normalize_dates` (schedules.py). -/
def normalize_dates (p : Sched) : Except String Sched := do
  let di ← parse_date p.data_inicio
  let df ← parse_date p.data_fim
  pure { p with data_inicio := strftimeDate di, data_fim := strftimeDate df }

/-- The `cleaned` accumulation loop of `_normalize_instructors`. -/
def cleaned_ids (raw_ids : List String) : List String :=
  raw_ids.foldl (fun cleaned value =>
    let instructor_id := value.trim
    if instructor_id != "" && !cleaned.contains instructor_id then cleaned ++ [instructor_id]
    else cleaned) []

/-- `_normalize_instructors` (schedules.py). -/
def normalize_instructors (p : Sched) : Sched :=
  let cleaned := cleaned_ids p.instrutor_ids
  let primary := p.instrutor_id.trim
  let cleaned := if primary != "" && !cleaned.contains primary then primary :: cleaned else cleaned
  if cleaned ≠ [] then { p with instrutor_ids := cleaned, instrutor_id := cleaned.headD "" }
  else p

/-- `_get_instructor_ids` (schedules.py). -/
def get_instructor_ids (p : Sched) : List String :=
  let cleaned := (p.instrutor_ids.map (·.trim)).filter (· != "")
  if cleaned ≠ [] then cleaned
  else
    let primary := p.instrutor_id.trim
    if primary ≠ "" then [primary] else []

/-- `_parse_time` (schedules.py). -/
def parse_time (raw : String) : Except String Hm :=
  match strptimeTime raw with
  | some t => .ok t
  | none => .error ("HorÃ¡rio invÃ¡lido: " ++ raw)

/-- `_date_ranges_overlap` (schedules.py). -/
def date_ranges_overlap (start_a end_a start_b end_b : Ymd) : Bool :=
  Ymd.leb start_a end_b && Ymd.leb start_b end_a

/-- `_times_overlap` (schedules.py). -/
def times_overlap (start_a end_a start_b end_b : Hm) : Bool :=
  Hm.ltb start_a end_b && Hm.ltb start_b end_a

/-- `_canonical_weekday` (schedules.py): the alias table maps each canonical
token to itself and everything else to `""`. -/
def canonical_weekday (raw : String) : String :=
  let token := charReplace 'Á' 'A' (pyUpper raw.trim)
  if token = "SEG" ∨ token = "TER" ∨ token = "QUA" ∨ token = "QUI" ∨
      token = "SEX" ∨ token = "SAB" then token
  else ""

/-- `_weekday_to_index` (schedules.py). -/
def weekday_to_index (raw : String) : Option Nat :=
  match canonical_weekday raw with
  | "SEG" => some 0
  | "TER" => some 1
  | "QUA" => some 2
  | "QUI" => some 3
  | "SEX" => some 4
  | "SAB" => some 5
  | _ => none

/-- `_month_last_day` (schedules.py): `(first of next month) - (first of this
month)` in days, computed through date ordinals. -/
def month_last_day (y m : Nat) : Nat :=
  let nxt : Ymd := if m == 12 then ⟨y + 1, 1, 1⟩ else ⟨y, m + 1, 1⟩
  nxt.toOrd - (Ymd.mk y m 1).toOrd

/-- Loop of `_month_ranges_between`, one calendar month per step; the cursor
is kept as its `(year, month)` pair (its day is always 1) and the first
argument is the number of months from the cursor month up to the end month
inclusive — exactly the number of iterations the Python
`while cursor <= end_day` loop performs. -/
def month_ranges_aux (start_day end_day : Ymd) : Nat → Nat → Nat → List (Nat × Nat × Ymd × Ymd)
  | 0, _, _ => []
  | fuel + 1, y, m =>
    if Ymd.leb ⟨y, m, 1⟩ end_day then
      (y, m, Ymd.maxD start_day ⟨y, m, 1⟩, Ymd.minD end_day ⟨y, m, month_last_day y m⟩) ::
        (if m == 12 then month_ranges_aux start_day end_day fuel (y + 1) 1
         else month_ranges_aux start_day end_day fuel y (m + 1))
    else []

/-- `_month_ranges_between` (schedules.py). -/
def month_ranges_between (start_day end_day : Ymd) : List (Nat × Nat × Ymd × Ymd) :=
  month_ranges_aux start_day end_day
    (end_day.y * 12 + end_day.m + 1 - (start_day.y * 12 + start_day.m))
    start_day.y start_day.m

/-- `_has_weekday_between` (schedules.py). -/
def has_weekday_between (start_day end_day : Ymd) (weekday_idx : Nat) : Bool :=
  if Ymd.ltb end_day start_day then false
  else
    let offset := (((weekday_idx : Int) - (start_day.weekday : Int)) % 7).toNat
    Ymd.leb (start_day.addDays offset) end_day

/-! ## `src/instructor_availability.py`: period normalisation and lookup -/

/-- `normalize_period` (instructor_availability.py).  On the engine's call
path the value strings are decimal numerals; the unparseable-value case is
folded into the error result (Python would raise `ValueError` there, a case
never reached from `_first_availability_record`). -/
def normalize_period (period_type period_value : String) : Except String (String × String) :=
  let p_type := pyLower period_type.trim
  if p_type ≠ "month" ∧ p_type ≠ "quarter" ∧ p_type ≠ "semester" ∧ p_type ≠ "year" then
    .error "Tipo de período inválido."
  else
    let raw_val := period_value.trim
    if p_type = "month" then
      match pyIntOfString (if raw_val = "" then "0" else raw_val) with
      | some num => if num < 1 ∨ num > 12 then .error "Mês inválido." else .ok (p_type, toString num)
      | none => .error "Mês inválido."
    else if p_type = "quarter" then
      match pyIntOfString (if raw_val = "" then "0" else raw_val) with
      | some num => if num < 1 ∨ num > 4 then .error "Trimestre inválido." else .ok (p_type, toString num)
      | none => .error "Trimestre inválido."
    else if p_type = "semester" then
      match pyIntOfString (if raw_val = "" then "0" else raw_val) with
      | some num => if num < 1 ∨ num > 2 then .error "Semestre inválido." else .ok (p_type, toString num)
      | none => .error "Semestre inválido."
    else .ok (p_type, "A")

/-- `build_record_id` (instructor_availability.py). -/
def build_record_id (instructor_id : String) (year : Nat) (period_type period_value : String) : String :=
  instructor_id.trim ++ "|" ++ toString year ++ "|" ++ pyLower period_type.trim ++ "|" ++ period_value.trim

/-- `get_by_context` (instructor_availability.py): first record whose `id`
equals the built composite key. -/
def get_by_context (avail : List AvailRecord) (instructor_id : String) (year : Nat)
    (period_type period_value : String) : Option AvailRecord :=
  avail.find? (fun item => item.id == build_record_id instructor_id year period_type period_value)

/-- `_availability_candidates_for_month` (schedules.py); the `year` argument
is accepted and ignored exactly as in the source. -/
def availability_candidates_for_month (_year month : Nat) : List (String × String) :=
  [("month", toString month), ("quarter", toString ((month - 1) / 3 + 1)),
   ("semester", if month ≤ 6 then "1" else "2"), ("year", "A")]

/-- Candidate loop of `_first_availability_record` (schedules.py). -/
def first_avail_aux (avail : List AvailRecord) (instructor_id : String) (year : Nat) :
    List (String × String) → Option AvailRecord
  | [] => none
  | (p_type, p_value) :: rest =>
    match normalize_period p_type p_value with
    | .error _ => first_avail_aux avail instructor_id year rest
    | .ok (n_type, n_value) =>
      match get_by_context avail instructor_id year n_type n_value with
      | some record => some record
      | none => first_avail_aux avail instructor_id year rest

/-- `_first_availability_record` (schedules.py). -/
def first_availability_record (avail : List AvailRecord) (instructor_id : String)
    (year month : Nat) : Option AvailRecord :=
  first_avail_aux avail instructor_id year (availability_candidates_for_month year month)

/-! ## `src/schedules.py`: the three validators and the conflict scan -/

/-- The normalisation applied to each stored slot value in
`_validate_instructor_availability`:
`str(value or "").strip().upper().replace("Á", "A")`. -/
def normalize_slot (value : String) : String :=
  charReplace 'Á' 'A' (pyUpper value.trim)

/-- The `ValidationError` message of `_validate_instructor_availability`
(the `missing` slots are listed sorted and comma-separated). -/
def availability_message (month year : Nat) (missing : List String) : String :=
  "Instrutor indisponivel no periodo " ++ pad2 month ++ "/" ++ toString year ++
    ". Slots ausentes para o turno selecionado: " ++
    String.intercalate ", " (missing.mergeSort (fun a b => decide (a ≤ b))) ++ "."

/-- One iteration of the month loop of `_validate_instructor_availability`
for one instructor: `ok ()` models the loop continuing, `error` the raise. -/
def avail_month_check (avail : List AvailRecord) (selected_weekdays required_slots : List String)
    (instructor_id : String) (ym : Nat × Nat × Ymd × Ymd) : Except String Unit :=
  let (year, month, window_start, window_end) := ym
  let has_execution_day := selected_weekdays.any (fun day =>
    match weekday_to_index day with
    | some idx => has_weekday_between window_start window_end idx
    | none => false)
  if !has_execution_day then .ok ()
  else
    match first_availability_record avail instructor_id year month with
    | none => .ok ()
    | some record =>
      let slots := record.slots.map normalize_slot
      let missing := required_slots.filter (fun slot => !slots.contains (charReplace 'Á' 'A' slot))
      if missing ≠ [] then .error (availability_message month year missing)
      else .ok ()

/-- Month loop of `_validate_instructor_availability` for one instructor. -/
def avail_months_check (avail : List AvailRecord) (selected_weekdays required_slots : List String)
    (instructor_id : String) (months : List (Nat × Nat × Ymd × Ymd)) : Except String Unit :=
  months.forM (avail_month_check avail selected_weekdays required_slots instructor_id)

/-- Instructor loop of `_validate_instructor_availability`. -/
def avail_instructors_check (avail : List AvailRecord) (months : List (Nat × Nat × Ymd × Ymd))
    (selected_weekdays required_slots : List String) (ids : List String) : Except String Unit :=
  ids.forM (fun instructor_id =>
    avail_months_check avail selected_weekdays required_slots instructor_id months)

/-- `_validate_instructor_availability` (schedules.py).  `required_slots` is
the Python set comprehension; its content is kept as a first-occurrence
deduplicated list. -/
def validate_instructor_availability (avail : List AvailRecord) (p : Sched) :
    Except String Unit := do
  let start ← parse_date p.data_inicio
  let end_ ← parse_date p.data_fim
  if Ymd.ltb end_ start then .ok ()
  else
    let turno_id := p.turno_id.trim
    if turno_id = "" then .ok ()
    else
      let selected_weekdays := (p.dias_execucao.map canonical_weekday).filter (· != "")
      if selected_weekdays = [] then .ok ()
      else
        let required_slots := dedupFirst (selected_weekdays.map (fun day => day ++ "|" ++ turno_id))
        avail_instructors_check avail (month_ranges_between start end_)
          selected_weekdays required_slots (get_instructor_ids p)

/-- `_duration_hours` (schedules.py), in exact rational hours. -/
def duration_hours (start_raw end_raw : String) : Except String ℚ := do
  let start_time ← parse_time start_raw
  let end_time ← parse_time end_raw
  let start_minutes := start_time.minutes
  let end_minutes := end_time.minutes
  if end_minutes ≤ start_minutes then .error "HorÃ¡rio final deve ser maior que o inicial."
  else pure (((end_minutes : ℚ) - (start_minutes : ℚ)) / 60)

/-- One iteration of the `total` accumulation loop of
`_validate_instructor_workload`. -/
def workload_step (instructor_id : String) (total : ℚ) (item : Sched) : Except String ℚ :=
  if !(get_instructor_ids item).contains instructor_id then pure total
  else if item.hora_inicio != "" && item.hora_fim != "" then do
    let d ← duration_hours item.hora_inicio item.hora_fim
    pure (total + d * (item.dias_execucao.length : ℚ))
  else pure total

/-- The `total` accumulation loop of `_validate_instructor_workload` for one
instructor, started at the candidate's own `weekly_hours`. -/
def workload_total (existing : List Sched) (instructor_id : String) (weekly_hours : ℚ) :
    Except String ℚ :=
  existing.foldlM (workload_step instructor_id) weekly_hours

/-- One iteration of the instructor loop of `_validate_instructor_workload`:
`ok ()` models the loop continuing (also the `continue` on an unset cap),
`error` the raise. -/
def workload_one_check (instructors : List Instrutor) (existing : List Sched)
    (weekly_hours : ℚ) (instructor_id : String) : Except String Unit :=
  match find_instrutor instructors instructor_id with
  | none => .error ("Colaborador nao encontrado: " ++ instructor_id)
  | some instructor =>
    match instructor.max_horas_semana with
    | none => .ok ()
    | some limit => do
      let total ← workload_total existing instructor_id weekly_hours
      if total > limit then
        .error "Limite de carga horaria semanal excedido para o colaborador."
      else .ok ()

/-- Instructor loop of `_validate_instructor_workload`. -/
def workload_instructors_check (instructors : List Instrutor) (existing : List Sched)
    (weekly_hours : ℚ) (ids : List String) : Except String Unit :=
  ids.forM (workload_one_check instructors existing weekly_hours)

/-- `_validate_instructor_workload` (schedules.py). -/
def validate_instructor_workload (instructors : List Instrutor) (existing : List Sched)
    (p : Sched) : Except String Unit := do
  let d ← duration_hours p.hora_inicio p.hora_fim
  let weekly_hours := d * (p.dias_execucao.length : ℚ)
  workload_instructors_check instructors existing weekly_hours (get_instructor_ids p)

/-- `re.fullmatch(r"\d{4}\.\d{2}\.\d{3}", turma)`. -/
def turma_matches (turma : String) : Bool :=
  match turma.data with
  | [a, b, c, d, p1, e, f, p2, g, h, i] =>
    [a, b, c, d, e, f, g, h, i].all Char.isDigit && p1 == '.' && p2 == '.'
  | _ => false

/-- `_validate_dates_and_times` (schedules.py). -/
def validate_dates_and_times (p : Sched) : Except String Unit := do
  let _ ← parse_date p.data_inicio
  let _ ← parse_date p.data_fim
  if p.dias_execucao = [] then .error "Dias de execuÃ§Ã£o sÃ£o obrigatÃ³rios."
  else do
    let _ ← duration_hours p.hora_inicio p.hora_fim
    if p.turma = "" then .error "NÃºmero da turma Ã© obrigatÃ³rio."
    else if !turma_matches p.turma then
      .error "NÃºmero da turma invÃ¡lido. Formato esperado: 0000.00.000."
    else .ok ()

/-- One iteration of the per-offering scan loop of `_validate_conflicts`
(schedules.py lines 198-224): `ok ()` models the loop continuing past
`item`, `error` the raised conflict (or a parse failure of `item`'s
dates/times). -/
def conflict_check_item (payload_days payload_instructors : List String) (sala_id : String)
    (start end_ : Ymd) (start_time end_time : Hm) (item : Sched) : Except String Unit :=
  if item.data_inicio = "" ∨ item.data_fim = "" then .ok ()
  else do
    let item_start ← parse_date item.data_inicio
    let item_end ← parse_date item.data_fim
    if !date_ranges_overlap start end_ item_start item_end then .ok ()
    else
      let other_days := item.dias_execucao
      if payload_days ≠ [] ∧ other_days ≠ [] ∧ ¬ payload_days.any (other_days.contains ·) then
        .ok ()
      else do
        let time_filtered ←
          if item.hora_inicio != "" && item.hora_fim != "" then do
            let other_start ← parse_time item.hora_inicio
            let other_end ← parse_time item.hora_fim
            pure (!times_overlap start_time end_time other_start other_end)
          else pure false
        if time_filtered then .ok ()
        else if item.sala_id == sala_id then
          .error "Conflito de ambiente: horario ja reservado."
        else if payload_instructors.any ((get_instructor_ids item).contains ·) then
          .error "Conflito de instrutor: horario ja reservado."
        else .ok ()

/-- The per-offering scan loop of `_validate_conflicts` (lines 198-224). -/
def conflict_scan (payload_days payload_instructors : List String) (sala_id : String)
    (start end_ : Ymd) (start_time end_time : Hm) (existing : List Sched) : Except String Unit :=
  existing.forM
    (conflict_check_item payload_days payload_instructors sala_id start end_ start_time end_time)

/-- `_validate_conflicts` (schedules.py). -/
def validate_conflicts (instructors : List Instrutor) (avail : List AvailRecord)
    (existing : List Sched) (p : Sched) : Except String Unit := do
  let start ← parse_date p.data_inicio
  let end_ ← parse_date p.data_fim
  if Ymd.ltb end_ start then .error "Data inicio nao pode ser maior que data fim."
  else do
    validate_dates_and_times p
    validate_instructor_availability avail p
    validate_instructor_workload instructors existing p
    let start_time ← parse_time p.hora_inicio
    let end_time ← parse_time p.hora_fim
    conflict_scan p.dias_execucao (get_instructor_ids p) p.sala_id start end_
      start_time end_time existing

/-! ## `src/schedules.py`: references, id generation, create and update -/

/-- `_ensure_exists` (schedules.py) on an id-list collection. -/
def ensure_exists (ids : List String) (item_id : String) (label : String) : Except String Unit :=
  if ids.contains item_id then .ok ()
  else .error (label ++ " nÃ£o encontrado: " ++ item_id)

/-- `_ensure_instructor` (schedules.py). -/
def ensure_instructor (instructors : List Instrutor) (instructor_id : String)
    (role : String) : Except String Unit :=
  match find_instrutor instructors instructor_id with
  | none => .error ("Colaborador nÃ£o encontrado: " ++ instructor_id)
  | some instructor =>
    if instructor.role != role then
      .error ("Colaborador informado nÃ£o Ã© da categoria " ++ role ++ ".")
    else .ok ()

/-- `_validate_references` (schedules.py). -/
def validate_references (stores : Stores) (p : Sched) : Except String Unit := do
  ensure_exists stores.courses p.curso_id "Curso"
  (get_instructor_ids p).forM (fun instructor_id =>
    ensure_instructor stores.instructors instructor_id "Instrutor")
  ensure_instructor stores.instructors p.analista_id "Analista"
  let assistente_id := p.assistente_id.trim
  if assistente_id ≠ "" then ensure_instructor stores.instructors assistente_id "Assistente"
  else pure ()
  ensure_exists stores.rooms p.sala_id "Ambiente"
  ensure_exists stores.shifts p.turno_id "Turno"

/-- `_resolve_year` (schedules.py); `nowYear` models `datetime.now().year`. -/
def resolve_year (raw : String) (nowYear : Nat) : Nat :=
  match pyIntOfString raw with
  | some v => if v > 0 then v.toNat else nowYear
  | none => nowYear

/-- `re.match(r"^\s*(\d+)\s*/\s*(\d{4})\s*$", raw)`: the sequence number and
the four year digits. -/
def offer_id_match (raw : String) : Option (Nat × String) :=
  match raw.splitOn "/" with
  | [seq_part, year_part] =>
    let seq_text := seq_part.trim
    let year_text := year_part.trim
    if seq_text ≠ "" ∧ seq_text.data.all Char.isDigit ∧
        year_text.length = 4 ∧ year_text.data.all Char.isDigit then
      some (natOfDigits seq_text.data, year_text)
    else none
  | _ => none

/-- `_next_offer_id` (schedules.py). -/
def next_offer_id (items : List Sched) (year : Nat) : String :=
  let year_str := toString year
  let highest := items.foldl (fun highest item =>
    match offer_id_match item.id.trim with
    | some (seq, item_year) => if item_year == year_str then max highest seq else highest
    | none => highest) 0
  let next_seq := highest + 1
  let seq_text := if next_seq < 100 then pad2 next_seq else toString next_seq
  seq_text ++ "/" ++ year_str

/-- `create_schedule` (schedules.py).  The result carries the schedules list
handed to `save_items` together with the returned payload; an error result
models the raised `ValidationError`, in which case `save_items` is never
reached. -/
def create_schedule (stores : Stores) (nowYear : Nat) (payload : Sched) :
    Except String (List Sched × Sched) := do
  let items := stores.schedules
  let payload :=
    if payload.id = "" then
      { payload with id := next_offer_id items (resolve_year payload.ano nowYear) }
    else payload
  let payload := normalize_instructors payload
  let payload ← normalize_dates payload
  require_sched_fields payload
  ensure_unique_id items payload.id
  validate_references stores payload
  validate_conflicts stores.instructors stores.availability items payload
  pure (items ++ [payload], payload)

/-- In-place mutation of the first schedule whose id is `sid` (the effect of
`schedule.update(...)` on the loaded `items` list). -/
def set_first_by_id : List Sched → String → Sched → List Sched
  | [], _, _ => []
  | it :: rest, sid, merged =>
    if it.id == sid then merged :: rest else it :: set_first_by_id rest sid merged

/-- `update_schedule` (schedules.py).  The dict merge
`schedule.update(updates)` is modelled by the caller-supplied `updates`
function applied to the stored record; the result carries the schedules list
handed to `save_items` together with the returned record. -/
def update_schedule (stores : Stores) (schedule_id : String) (updates : Sched → Sched)
    (validate_schedule : Bool) : Except String (List Sched × Sched) :=
  match find_sched stores.schedules schedule_id with
  | none => .error ("ProgramaÃ§Ã£o nÃ£o encontrada: " ++ schedule_id)
  | some schedule => do
    let schedule := normalize_instructors (updates schedule)
    let schedule ← normalize_dates schedule
    let items := set_first_by_id stores.schedules schedule_id schedule
    if validate_schedule then do
      require_sched_fields schedule
      validate_references stores schedule
      let remaining := items.filter (fun it => it.id != schedule_id)
      validate_conflicts stores.instructors stores.availability remaining schedule
      pure (items, schedule)
    else pure (items, schedule)

/-! ## Claim-side specification of the end-date walk -/

/-- Claim-side qualifying-day test (C1's wording): the day's weekday lies in
the selected weekday set AND its day-of-month number lies in that month's
teaching-day set. -/
def qualifyingDay (sel : List Nat) (monthSets : List (List Int)) (year doy : Nat) : Bool :=
  sel.contains (ymdOfDoy year doy).weekday &&
    (monthSets.getD ((ymdOfDoy year doy).m - 1) []).contains ((ymdOfDoy year doy).d : Int)

/-- Claim-side ordered list of qualifying days-of-year from `startDoy` to the
end of the year. -/
def qualifyingDoys (year : Nat) (sel : List Nat) (monthSets : List (List Int))
    (startDoy : Nat) : List Nat :=
  (List.range' startDoy (yearLength year + 1 - startDoy)).filter (qualifyingDay sel monthSets year)

/-- Claim-side end date (C1's wording): the date on which the forward walk
from `startDoy` accumulates `needed` qualifying days — the `needed`-th
qualifying day of the year — or the source's exhaustion error when fewer than
`needed` qualifying days remain. -/
def endDateSpec (year : Nat) (sel : List Nat) (monthSets : List (List Int))
    (needed startDoy : Nat) : Except String Ymd :=
  match (qualifyingDoys year sel monthSets startDoy)[needed - 1]? with
  | some q => .ok (ymdOfDoy year q)
  | none => .error "NÃ£o hÃ¡ dias letivos suficientes no calendÃ¡rio para o perÃ­odo informado."

/-- The source walk, run with any fuel, returns the `needed - counted`-th
qualifying day among the next `fuel` days, or the exhaustion error. -/
theorem endDateWalk_eq_spec (year : Nat) (sel : List Nat) (monthSets : List (List Int))
    (needed : Nat) :
    ∀ fuel doy counted, counted < needed →
    endDateWalk year sel monthSets needed fuel doy counted =
      match ((List.range' doy fuel).filter (qualifyingDay sel monthSets year))[needed - counted - 1]? with
      | some q => .ok (ymdOfDoy year q)
      | none => .error "NÃ£o hÃ¡ dias letivos suficientes no calendÃ¡rio para o perÃ­odo informado." := by
  intro fuel
  induction fuel with
  | zero =>
    intro doy counted _h
    simp [endDateWalk, List.range']
  | succ n ih =>
    intro doy counted hlt
    rw [List.range'_succ, List.filter_cons]
    by_cases hq : qualifyingDay sel monthSets year doy = true
    · rw [if_pos hq]
      have hcond : (sel.contains (ymdOfDoy year doy).weekday &&
          ((monthSets.getD ((monthDayOfDoy year doy).1 - 1) []).contains
            ((monthDayOfDoy year doy).2 : Int))) = true := by
        simpa [qualifyingDay, ymdOfDoy] using hq
      by_cases hge : counted + 1 ≥ needed
      · have hidx : needed - counted - 1 = 0 := by omega
        rw [hidx, List.getElem?_cons_zero]
        simp only [endDateWalk, hcond, if_true, if_pos hge]
      · have hidx : needed - counted - 1 = (needed - (counted + 1) - 1) + 1 := by omega
        rw [hidx, List.getElem?_cons_succ]
        have := ih (doy + 1) (counted + 1) (by omega)
        simp only [endDateWalk, hcond, if_true, if_neg hge]
        exact this
    · rw [if_neg hq]
      have hcond : (sel.contains (ymdOfDoy year doy).weekday &&
          ((monthSets.getD ((monthDayOfDoy year doy).1 - 1) []).contains
            ((monthDayOfDoy year doy).2 : Int))) = false := by
        simpa [qualifyingDay, ymdOfDoy] using hq
      have := ih (doy + 1) counted hlt
      simp only [endDateWalk, hcond, Bool.false_eq_true, if_false]
      exact this

/-- C1: for every year, start date parseable as DD/MM/YYYY falling within
that year, weekday list with a non-empty valid Mon..Sat selection, strictly
positive total and per-day hours, and a (12-month) calendar present for the
year, `_calculate_end_date` returns the date at which the forward day-by-day
walk from the start date, staying within the year, accumulates
`ceil(total_hours / hours_per_day)` qualifying days, where a day qualifies
exactly when its weekday is in the selected set and its day-of-month number
is in that month's teaching-day set. -/
theorem c1_calculate_end_date_matches_spec
    (year : Nat) (start_date_raw : String) (days_execucao : List String)
    (ch_total hs_dia : ℚ) (cal : Calendario) (start : Ymd)
    (hparse : strptimeDate start_date_raw = some start)
    (hyear : start.y = year)
    (hsel : days_execucao.filterMap weekdayMapMain ≠ [])
    (hch : 0 < ch_total) (hhs : 0 < hs_dia)
    (_hlen : cal.dias_letivos_por_mes.length = 12) :
    calculate_end_date year start_date_raw days_execucao ch_total hs_dia (some cal) =
      endDateSpec year (days_execucao.filterMap weekdayMapMain)
        (cal.dias_letivos_por_mes.map sanitize_days_list)
        (⌈ch_total / hs_dia⌉).toNat start.doy := by
  have hraw : start_date_raw ≠ "" := by
    intro h
    rw [h] at hparse
    have hnone : strptimeDate "" = none := by with_unfolding_all rfl
    rw [hnone] at hparse
    exact Option.noConfusion hparse
  have hdays : days_execucao ≠ [] := by
    intro h
    rw [h] at hsel
    exact hsel rfl
  have hceil : 0 < ⌈ch_total / hs_dia⌉ := Int.ceil_pos.mpr (div_pos hch hhs)
  have hneeded : 0 < (⌈ch_total / hs_dia⌉).toNat := by omega
  simp only [calculate_end_date]
  rw [if_neg hraw, if_neg (not_or.mpr ⟨not_le.mpr hch, not_le.mpr hhs⟩), if_neg hdays, hparse]
  simp only [if_neg (show ¬ start.y ≠ year from fun h => h hyear), if_neg hsel,
    if_neg (not_le.mpr hceil)]
  rw [endDateWalk_eq_spec year _ _ _ _ start.doy 0 hneeded]
  simp only [endDateSpec, qualifyingDoys, Nat.sub_zero]

/-- The 2024 calendar of spec Scenario 1: days 1, 8, 15, 22 and 29 of March
marked as teaching days, all other months empty. -/
def calMarch2024 : Calendario :=
  ⟨[[], [], [1, 8, 15, 22, 29], [], [], [], [], [], [], [], [], []]⟩

/-- Witness for `c1_calculate_end_date_matches_spec` at a concrete input. -/
theorem c1_witness :
    strptimeDate "01/03/2024" = some ⟨2024, 3, 1⟩ ∧
    (Ymd.mk 2024 3 1).y = 2024 ∧
    ["SEX"].filterMap weekdayMapMain ≠ [] ∧
    (0 : ℚ) < 40 ∧ (0 : ℚ) < 8 ∧
    calMarch2024.dias_letivos_por_mes.length = 12 ∧
    calculate_end_date 2024 "01/03/2024" ["SEX"] 40 8 (some calMarch2024) =
      endDateSpec 2024 (["SEX"].filterMap weekdayMapMain)
        (calMarch2024.dias_letivos_por_mes.map sanitize_days_list)
        ((⌈(40 : ℚ) / 8⌉).toNat) (Ymd.doy ⟨2024, 3, 1⟩) :=
  ⟨by with_unfolding_all rfl, rfl, by decide,
   of_decide_eq_true (by with_unfolding_all rfl),
   of_decide_eq_true (by with_unfolding_all rfl), rfl,
   c1_calculate_end_date_matches_spec 2024 "01/03/2024" ["SEX"] 40 8 calMarch2024
     ⟨2024, 3, 1⟩ (by with_unfolding_all rfl) rfl (by decide)
     (of_decide_eq_true (by with_unfolding_all rfl))
     (of_decide_eq_true (by with_unfolding_all rfl)) rfl⟩

set_option maxRecDepth 40000 in
/-- C7 fails as stated: with the calendar of Scenario 1, start 01/03/2024 and
weekday set `{SEG}` (Monday), `_calculate_end_date` does not return
29/03/2024 — days 1, 8, 15, 22 and 29 of March 2024 are Fridays, so no day
qualifies and the walk exhausts the year. -/
theorem c7_counterexample :
    calculate_end_date 2024 "01/03/2024" ["SEG"] 40 8 (some calMarch2024) =
      .error "NÃ£o hÃ¡ dias letivos suficientes no calendÃ¡rio para o perÃ­odo informado." ∧
    calculate_end_date 2024 "01/03/2024" ["SEG"] 40 8 (some calMarch2024) ≠
      .ok ⟨2024, 3, 29⟩ := by
  constructor
  · with_unfolding_all rfl
  · intro h
    have h' : (Except.error "NÃ£o hÃ¡ dias letivos suficientes no calendÃ¡rio para o perÃ­odo informado." :
        Except String Ymd) = .ok ⟨2024, 3, 29⟩ := by
      rw [← h]
      with_unfolding_all rfl
    exact Except.noConfusion h'

set_option maxRecDepth 40000 in
/-- C7 amended: with the Scenario 1 calendar, 40 total hours at 8 hours/day
and start 01/03/2024, the weekday set `{SEG}` yields the calendar-exhaustion
error (the marked days 1, 8, 15, 22, 29 of March 2024 are Fridays), and the
weekday set `{SEX}` (Friday) yields the end date 29/03/2024. -/
theorem c7_amended_scenario :
    calculate_end_date 2024 "01/03/2024" ["SEG"] 40 8 (some calMarch2024) =
      .error "NÃ£o hÃ¡ dias letivos suficientes no calendÃ¡rio para o perÃ­odo informado." ∧
    calculate_end_date 2024 "01/03/2024" ["SEX"] 40 8 (some calMarch2024) =
      .ok ⟨2024, 3, 29⟩ := by
  constructor
  · with_unfolding_all rfl
  · with_unfolding_all rfl

/-! ## Monotonicity of the end date in the total hours (C6) -/

/-- The month-scan never moves to an earlier month. -/
theorem monthDayOfDoyAux_fst_ge (y : Nat) :
    ∀ k m doy, m ≤ (monthDayOfDoyAux y k m doy).1 := by
  intro k
  induction k with
  | zero => intro m doy; simp [monthDayOfDoyAux]
  | succ n ih =>
    intro m doy
    simp only [monthDayOfDoyAux]
    by_cases hle : doy ≤ daysInMonth y m
    · simp [hle]
    · simp only [if_neg hle]
      exact Nat.le_of_succ_le (ih (m + 1) (doy - daysInMonth y m))

/-- The month-scan is monotone: a later day-of-year lands on a
lexicographically later (month, day) pair. -/
theorem monthDayOfDoyAux_mono (y : Nat) :
    ∀ k m q1 q2, q1 ≤ q2 →
    (monthDayOfDoyAux y k m q1).1 < (monthDayOfDoyAux y k m q2).1 ∨
      ((monthDayOfDoyAux y k m q1).1 = (monthDayOfDoyAux y k m q2).1 ∧
        (monthDayOfDoyAux y k m q1).2 ≤ (monthDayOfDoyAux y k m q2).2) := by
  intro k
  induction k with
  | zero => intro m q1 q2 hq; right; exact ⟨rfl, hq⟩
  | succ n ih =>
    intro m q1 q2 hq
    simp only [monthDayOfDoyAux]
    by_cases h2 : q2 ≤ daysInMonth y m
    · have h1 : q1 ≤ daysInMonth y m := le_trans hq h2
      simp [h1, h2, hq]
    · by_cases h1 : q1 ≤ daysInMonth y m
      · simp only [if_pos h1, if_neg h2]
        left
        exact Nat.lt_of_succ_le (monthDayOfDoyAux_fst_ge y n (m + 1) (q2 - daysInMonth y m))
      · simp only [if_neg h1, if_neg h2]
        exact ih (m + 1) (q1 - daysInMonth y m) (q2 - daysInMonth y m)
          (Nat.sub_le_sub_right hq _)

/-- Same-year dates given by later days-of-year compare later under the
Python date order. -/
theorem ymdOfDoy_leb_of_le (year q1 q2 : Nat) (hq : q1 ≤ q2) :
    Ymd.leb (ymdOfDoy year q1) (ymdOfDoy year q2) = true := by
  have hlex := monthDayOfDoyAux_mono year 11 1 q1 q2 hq
  simp only [ymdOfDoy, monthDayOfDoy, Ymd.leb]
  simp only [Bool.or_eq_true, Bool.and_eq_true, decide_eq_true_eq, beq_iff_eq]
  exact Or.inr ⟨trivial, hlex⟩

/-- On a strictly increasing list, entries at increasing positions increase. -/
theorem pairwise_lt_getElem?_le {l : List Nat} (hp : l.Pairwise (· < ·))
    {i j a b : Nat} (hij : i ≤ j) (ha : l[i]? = some a) (hb : l[j]? = some b) :
    a ≤ b := by
  have hi : i < l.length := by
    by_contra hc
    rw [List.getElem?_eq_none (Nat.le_of_not_lt hc)] at ha
    exact Option.noConfusion ha
  have hj : j < l.length := by
    by_contra hc
    rw [List.getElem?_eq_none (Nat.le_of_not_lt hc)] at hb
    exact Option.noConfusion hb
  have ha' : l[i] = a := by
    have := List.getElem?_eq_getElem hi
    rw [this] at ha
    exact Option.some.inj ha
  have hb' : l[j] = b := by
    have := List.getElem?_eq_getElem hj
    rw [this] at hb
    exact Option.some.inj hb
  rcases Nat.eq_or_lt_of_le hij with heq | hlt
  · subst heq
    rw [ha'] at hb'
    omega
  · have := List.pairwise_iff_get.mp hp ⟨i, hi⟩ ⟨j, hj⟩ hlt
    simp only [List.get_eq_getElem, ha', hb'] at this
    omega

/-- Success inversion for `calculate_end_date`: a returned date is the
`ceil(ch/hs)`-th qualifying day of the year from the parsed start date. -/
theorem calculate_end_date_ok_inv (year : Nat) (raw : String) (days : List String)
    (ch hs : ℚ) (calo : Option Calendario) (d : Ymd)
    (h : calculate_end_date year raw days ch hs calo = .ok d) :
    ∃ cal start q, calo = some cal ∧ strptimeDate raw = some start ∧ start.y = year ∧
      0 < ch ∧ 0 < hs ∧
      (qualifyingDoys year (days.filterMap weekdayMapMain)
        (cal.dias_letivos_por_mes.map sanitize_days_list)
        start.doy)[(⌈ch / hs⌉).toNat - 1]? = some q ∧
      d = ymdOfDoy year q := by
  match calo with
  | none => simp [calculate_end_date] at h
  | some cal =>
    simp only [calculate_end_date] at h
    by_cases hraw : raw = ""
    · rw [if_pos hraw] at h; exact Except.noConfusion h
    rw [if_neg hraw] at h
    by_cases hdays : days = []
    · rw [if_pos hdays] at h; exact Except.noConfusion h
    rw [if_neg hdays] at h
    by_cases hpos : ch ≤ 0 ∨ hs ≤ 0
    · rw [if_pos hpos] at h; exact Except.noConfusion h
    rw [if_neg hpos] at h
    match hp : strptimeDate raw with
    | none => rw [hp] at h; exact Except.noConfusion h
    | some start =>
      rw [hp] at h
      simp only at h
      by_cases hy : start.y ≠ year
      · rw [if_pos hy] at h; exact Except.noConfusion h
      rw [if_neg hy] at h
      by_cases hsel : days.filterMap weekdayMapMain = []
      · rw [if_pos hsel] at h; exact Except.noConfusion h
      rw [if_neg hsel] at h
      by_cases hneed : (⌈ch / hs⌉ : Int) ≤ 0
      · rw [if_pos hneed] at h; exact Except.noConfusion h
      rw [if_neg hneed] at h
      have hcnt : 0 < (⌈ch / hs⌉ : Int).toNat := by omega
      rw [endDateWalk_eq_spec year _ _ _ _ start.doy 0 hcnt] at h
      match hq : (qualifyingDoys year (days.filterMap weekdayMapMain)
          (cal.dias_letivos_por_mes.map sanitize_days_list)
          start.doy)[(⌈ch / hs⌉ : Int).toNat - 0 - 1]? with
      | none =>
        rw [qualifyingDoys] at hq
        rw [hq] at h
        exact Except.noConfusion h
      | some q =>
        rw [qualifyingDoys] at hq
        rw [hq] at h
        refine ⟨cal, start, q, rfl, rfl, Decidable.not_not.mp hy, ?_, ?_, ?_, ?_⟩
        · rcases not_or.mp hpos with ⟨h1, _⟩; exact lt_of_not_le h1
        · rcases not_or.mp hpos with ⟨_, h2⟩; exact lt_of_not_le h2
        · simpa using hq
        · exact (Except.ok.inj h).symm

/-- C6: for a fixed calendar, year, start date, weekday set and hours/day, if
`_calculate_end_date` succeeds for `ch1` and for `ch2 ≥ ch1`, the end date
computed for `ch2` is not earlier than the one computed for `ch1`. -/
theorem c6_end_date_monotone (year : Nat) (raw : String) (days : List String)
    (ch1 ch2 hs : ℚ) (calo : Option Calendario) (d1 d2 : Ymd)
    (h1 : calculate_end_date year raw days ch1 hs calo = .ok d1)
    (h2 : calculate_end_date year raw days ch2 hs calo = .ok d2)
    (hch : ch1 ≤ ch2) :
    Ymd.leb d1 d2 = true := by
  obtain ⟨cal1, start1, q1, hc1, hp1, _, _, hhs1, hq1, hd1⟩ :=
    calculate_end_date_ok_inv year raw days ch1 hs calo d1 h1
  obtain ⟨cal2, start2, q2, hc2, hp2, _, _, _, hq2, hd2⟩ :=
    calculate_end_date_ok_inv year raw days ch2 hs calo d2 h2
  have hcal : cal2 = cal1 := by
    rw [hc1] at hc2
    exact (Option.some.inj hc2).symm
  have hstart : start2 = start1 := by
    rw [hp1] at hp2
    exact (Option.some.inj hp2).symm
  rw [hcal, hstart] at hq2
  have hdiv : ch1 / hs ≤ ch2 / hs := div_le_div_of_nonneg_right hch hhs1.le
  have hneed : (⌈ch1 / hs⌉ : Int).toNat - 1 ≤ (⌈ch2 / hs⌉ : Int).toNat - 1 := by
    have := Int.toNat_le_toNat (Int.ceil_le_ceil hdiv)
    omega
  have hpair : (qualifyingDoys year (days.filterMap weekdayMapMain)
      (cal1.dias_letivos_por_mes.map sanitize_days_list) start1.doy).Pairwise (· < ·) := by
    simp only [qualifyingDoys]
    exact (List.pairwise_lt_range' _ _).filter _
  have hle : q1 ≤ q2 := pairwise_lt_getElem?_le hpair hneed hq1 hq2
  rw [hd1, hd2]
  exact ymdOfDoy_leb_of_le year q1 q2 hle

/-- Witness for `c6_end_date_monotone` at a concrete input. -/
theorem c6_witness :
    calculate_end_date 2024 "01/03/2024" ["SEX"] 32 8 (some calMarch2024) =
      .ok ⟨2024, 3, 22⟩ ∧
    calculate_end_date 2024 "01/03/2024" ["SEX"] 40 8 (some calMarch2024) =
      .ok ⟨2024, 3, 29⟩ ∧
    (32 : ℚ) ≤ 40 ∧
    Ymd.leb ⟨2024, 3, 22⟩ ⟨2024, 3, 29⟩ = true :=
  ⟨by with_unfolding_all rfl, by with_unfolding_all rfl,
   of_decide_eq_true (by with_unfolding_all rfl),
   c6_end_date_monotone 2024 "01/03/2024" ["SEX"] 32 40 8 (some calMarch2024)
     ⟨2024, 3, 22⟩ ⟨2024, 3, 29⟩ (by with_unfolding_all rfl) (by with_unfolding_all rfl)
     (of_decide_eq_true (by with_unfolding_all rfl))⟩

/-! ## Boundary non-overlap (C5) and blank-date skipping (C10) -/

/-- Shared concrete fixtures for the conflict scenarios: one instructor with
no weekly cap, and the two room-`R1` Wednesday offerings of spec Scenarios
2 and 3. -/
def instrFix : List Instrutor := [⟨"i1", "Instrutor", none⟩]

/-- Existing offering: room R1, Wednesdays, 08:00-12:00, July 2024. -/
def offWedMorning : Sched := {
  id := "01/2024"
  sala_id := "R1"
  data_inicio := "01/07/2024"
  data_fim := "31/07/2024"
  hora_inicio := "08:00"
  hora_fim := "12:00"
  dias_execucao := ["QUA"]
  instrutor_id := "i2"
}

/-- The same offering with window 08:00-12:30 (spec Scenario 3). -/
def offWedMorningLong : Sched := { offWedMorning with hora_fim := "12:30" }

/-- Candidate offering: room R1, Wednesdays, 12:00-16:00, July 2024. -/
def offWedAfternoon : Sched := {
  id := "02/2024"
  sala_id := "R1"
  data_inicio := "01/07/2024"
  data_fim := "31/07/2024"
  hora_inicio := "12:00"
  hora_fim := "16:00"
  dias_execucao := ["QUA"]
  instrutor_id := "i1"
  turno_id := "T1"
  turma := "2024.01.001"
}

/-- C5: two offerings whose daily windows share only an endpoint never
conflict — whenever the existing offering's dates and times parse and one
window ends exactly where the other starts, the conflict scan passes over it
with no conflict; and concretely (Scenarios 2 and 3) 08:00-12:00 against
12:00-16:00 in the same room on the same weekday with overlapping dates is
accepted, while 08:00-12:30 against 12:00-16:00 raises the room conflict. -/
theorem c5_boundary_non_overlap :
    (∀ (payload_days payload_instructors : List String) (sala_id : String)
       (start end_ : Ymd) (start_time end_time other_start other_end : Hm)
       (item : Sched) (di df : Ymd),
       parse_date item.data_inicio = .ok di →
       parse_date item.data_fim = .ok df →
       parse_time item.hora_inicio = .ok other_start →
       parse_time item.hora_fim = .ok other_end →
       (end_time = other_start ∨ other_end = start_time) →
       conflict_check_item payload_days payload_instructors sala_id start end_
         start_time end_time item = .ok ()) ∧
    validate_conflicts instrFix [] [offWedMorning] offWedAfternoon = .ok () ∧
    validate_conflicts instrFix [] [offWedMorningLong] offWedAfternoon =
      .error "Conflito de ambiente: horario ja reservado." := by
  refine ⟨?_, by with_unfolding_all rfl, by with_unfolding_all rfl⟩
  intro pdays pinstr sala start end_ st et ist iet item di df hdi hdf hti htf htouch
  have hempty : parse_time "" = Except.error "HorÃ¡rio invÃ¡lido: " := by
    with_unfolding_all rfl
  have hne1 : item.hora_inicio ≠ "" := by
    intro h
    rw [h, hempty] at hti
    exact Except.noConfusion hti
  have hne2 : item.hora_fim ≠ "" := by
    intro h
    rw [h, hempty] at htf
    exact Except.noConfusion htf
  have hover : times_overlap st et ist iet = false := by
    rcases htouch with h | h
    · simp [times_overlap, Hm.ltb, h]
    · simp [times_overlap, Hm.ltb, h]
  simp only [conflict_check_item]
  by_cases hblank : item.data_inicio = "" ∨ item.data_fim = ""
  · rw [if_pos hblank]
  · rw [if_neg hblank]
    rw [show (item.hora_inicio != "") = true by simpa using hne1,
      show (item.hora_fim != "") = true by simpa using hne2] at *
    simp only [hdi, hdf, hti, htf, hover, Bool.and_self, if_true, Except.bind, bind,
      Bool.not_false, pure]
    by_cases hd : !date_ranges_overlap start end_ di df
    · simp [hd]
    · simp only [Bool.not_eq_true'] at hd
      simp only [hd, Bool.not_false, if_false, Bool.not_true]
      by_cases hw : pdays ≠ [] ∧ item.dias_execucao ≠ [] ∧ ¬ pdays.any (item.dias_execucao.contains ·)
      · rw [if_pos hw]
        simp [Except.pure]
      · rw [if_neg hw]
        simp [Except.pure]

/-- Witness for the general part of `c5_boundary_non_overlap` at a concrete
input. -/
theorem c5_witness :
    conflict_check_item ["QUA"] ["i1"] "R1" ⟨2024, 7, 1⟩ ⟨2024, 7, 31⟩
      ⟨12, 0⟩ ⟨16, 0⟩ offWedMorning = .ok () :=
  c5_boundary_non_overlap.1 ["QUA"] ["i1"] "R1" ⟨2024, 7, 1⟩ ⟨2024, 7, 31⟩
    ⟨12, 0⟩ ⟨16, 0⟩ ⟨8, 0⟩ ⟨12, 0⟩ offWedMorning ⟨2024, 7, 1⟩ ⟨2024, 7, 31⟩
    (by with_unfolding_all rfl) (by with_unfolding_all rfl)
    (by with_unfolding_all rfl) (by with_unfolding_all rfl) (Or.inr rfl)

/-- `List.forM` over `Except`, unfolded one step. -/
theorem forM_cons_except {α : Type} (f : α → Except String Unit) (a : α) (l : List α) :
    (a :: l).forM f = f a >>= fun _ => l.forM f := rfl

/-- C10: an existing offering whose `data_inicio` or `data_fim` is blank is
skipped entirely by the conflict scan, so it can never cause a room or
instructor conflict: removing it from the scanned list does not change the
scan's outcome on any candidate. -/
theorem c10_blank_dates_skipped (payload_days payload_instructors : List String)
    (sala_id : String) (start end_ : Ymd) (start_time end_time : Hm)
    (l1 l2 : List Sched) (e : Sched)
    (he : e.data_inicio = "" ∨ e.data_fim = "") :
    conflict_scan payload_days payload_instructors sala_id start end_ start_time end_time
      (l1 ++ e :: l2) =
    conflict_scan payload_days payload_instructors sala_id start end_ start_time end_time
      (l1 ++ l2) := by
  have hcheck : conflict_check_item payload_days payload_instructors sala_id start end_
      start_time end_time e = .ok () := by
    simp only [conflict_check_item]
    rw [if_pos he]
  induction l1 with
  | nil =>
    simp only [conflict_scan, List.nil_append, forM_cons_except, hcheck]
    rfl
  | cons a l1 ih =>
    simp only [conflict_scan] at ih ⊢
    simp only [List.cons_append, forM_cons_except]
    simp only [ih]

/-- Witness for `c10_blank_dates_skipped` at a concrete input: a same-room
offering with a blank start date is ignored by the scan. -/
theorem c10_witness :
    (Sched.data_inicio { offWedMorning with data_inicio := "" } = "" ∨
      Sched.data_fim { offWedMorning with data_inicio := "" } = "") ∧
    conflict_scan ["QUA"] ["i1"] "R1" ⟨2024, 7, 1⟩ ⟨2024, 7, 31⟩ ⟨12, 0⟩ ⟨16, 0⟩
      ([] ++ { offWedMorning with data_inicio := "" } :: []) =
    conflict_scan ["QUA"] ["i1"] "R1" ⟨2024, 7, 1⟩ ⟨2024, 7, 31⟩ ⟨12, 0⟩ ⟨16, 0⟩ ([] ++ []) :=
  ⟨Or.inl rfl,
   c10_blank_dates_skipped ["QUA"] ["i1"] "R1" ⟨2024, 7, 1⟩ ⟨2024, 7, 31⟩ ⟨12, 0⟩ ⟨16, 0⟩
     [] [] { offWedMorning with data_inicio := "" } (Or.inl rfl)⟩

/-! ## C2: which errors are room/instructor conflicts -/

/-- The room-conflict message of `_validate_conflicts`. -/
def room_conflict_msg : String := "Conflito de ambiente: horario ja reservado."

/-- The instructor-conflict message of `_validate_conflicts`. -/
def instrutor_conflict_msg : String := "Conflito de instrutor: horario ja reservado."

/-- Two strings differing within their first three characters differ, whatever
is appended to the first. -/
theorem append_ne_of_take3_ne (pre rest target : String)
    (hne : pre.data.take 3 ≠ target.data.take 3) (hlen : 3 ≤ pre.data.length) :
    pre ++ rest ≠ target := by
  intro heq
  apply hne
  have hdata : pre.data ++ rest.data = target.data := by
    rw [← String.data_append, heq]
  rw [← hdata, List.take_append_of_le_length hlen]

/-- A date-parse failure message is not a conflict message. -/
theorem data_invalida_ne (raw : String) :
    ("Data invÃ¡lida: " ++ raw) ≠ room_conflict_msg ∧
    ("Data invÃ¡lida: " ++ raw) ≠ instrutor_conflict_msg :=
  ⟨append_ne_of_take3_ne _ raw _ (by decide) (by decide),
   append_ne_of_take3_ne _ raw _ (by decide) (by decide)⟩

/-- A time-parse failure message is not a conflict message. -/
theorem horario_invalido_ne (raw : String) :
    ("HorÃ¡rio invÃ¡lido: " ++ raw) ≠ room_conflict_msg ∧
    ("HorÃ¡rio invÃ¡lido: " ++ raw) ≠ instrutor_conflict_msg :=
  ⟨append_ne_of_take3_ne _ raw _ (by decide) (by decide),
   append_ne_of_take3_ne _ raw _ (by decide) (by decide)⟩

/-- A missing-collaborator message is not a conflict message. -/
theorem colaborador_ne (iid : String) :
    ("Colaborador nao encontrado: " ++ iid) ≠ room_conflict_msg ∧
    ("Colaborador nao encontrado: " ++ iid) ≠ instrutor_conflict_msg :=
  ⟨append_ne_of_take3_ne _ iid _ (by decide) (by decide),
   append_ne_of_take3_ne _ iid _ (by decide) (by decide)⟩

/-- The availability-rejection message always starts with `Ins`. -/
theorem availability_message_take3 (m y : Nat) (ms : List String) :
    (availability_message m y ms).data.take 3 = ['I', 'n', 's'] := by
  have hlit : (3 : Nat) ≤ "Instrutor indisponivel no periodo ".data.length := by decide
  simp only [availability_message, String.append_assoc]
  rw [String.data_append, List.take_append_of_le_length hlit]
  decide

/-- An availability-rejection message is not a conflict message. -/
theorem availability_message_ne (m y : Nat) (ms : List String) :
    availability_message m y ms ≠ room_conflict_msg ∧
    availability_message m y ms ≠ instrutor_conflict_msg := by
  have h3 := availability_message_take3 m y ms
  constructor
  · intro heq
    rw [heq] at h3
    revert h3
    decide
  · intro heq
    rw [heq] at h3
    revert h3
    decide

/-- `_parse_date` fails only with its own message. -/
theorem parse_date_error_shape (raw e : String) (h : parse_date raw = .error e) :
    e = "Data invÃ¡lida: " ++ raw := by
  unfold parse_date at h
  cases hp : strptimeDate raw with
  | some d => rw [hp] at h; exact Except.noConfusion h
  | none => rw [hp] at h; exact (Except.error.inj h).symm

/-- `_parse_time` fails only with its own message. -/
theorem parse_time_error_shape (raw e : String) (h : parse_time raw = .error e) :
    e = "HorÃ¡rio invÃ¡lido: " ++ raw := by
  unfold parse_time at h
  cases hp : strptimeTime raw with
  | some t => rw [hp] at h; exact Except.noConfusion h
  | none => rw [hp] at h; exact (Except.error.inj h).symm

/-- The only failure messages of `_duration_hours`. -/
theorem duration_hours_error_shape (s t e : String) (h : duration_hours s t = .error e) :
    e = "HorÃ¡rio invÃ¡lido: " ++ s ∨ e = "HorÃ¡rio invÃ¡lido: " ++ t ∨
    e = "HorÃ¡rio final deve ser maior que o inicial." := by
  unfold duration_hours at h
  cases hs : parse_time s with
  | error e1 =>
    rw [hs] at h
    simp only [bind, Except.bind] at h
    exact Or.inl ((Except.error.inj h).symm.trans (parse_time_error_shape s e1 hs))
  | ok st =>
    rw [hs] at h
    simp only [bind, Except.bind] at h
    cases ht : parse_time t with
    | error e2 =>
      rw [ht] at h
      exact Or.inr (Or.inl ((Except.error.inj h).symm.trans (parse_time_error_shape t e2 ht)))
    | ok et =>
      rw [ht] at h
      dsimp only at h
      by_cases hle : et.minutes ≤ st.minutes
      · rw [if_pos hle] at h
        exact Or.inr (Or.inr (Except.error.inj h).symm)
      · rw [if_neg hle] at h
        exact Except.noConfusion h

/-- A failing `forM` over `Except` fails at some member. -/
theorem forM_error_mem {α : Type} (f : α → Except String Unit) :
    ∀ (l : List α) (e : String), l.forM f = .error e → ∃ x, x ∈ l ∧ f x = .error e := by
  intro l
  induction l with
  | nil => intro e h; exact Except.noConfusion h
  | cons a t ih =>
    intro e h
    rw [forM_cons_except] at h
    cases hfa : f a with
    | error e1 =>
      rw [hfa] at h
      simp only [bind, Except.bind] at h
      exact ⟨a, List.mem_cons_self a t, hfa.trans (congrArg Except.error (Except.error.inj h))⟩
    | ok u =>
      rw [hfa] at h
      simp only [bind, Except.bind] at h
      obtain ⟨x, hx, hfx⟩ := ih e h
      exact ⟨x, List.mem_cons_of_mem a hx, hfx⟩

/-- A failing workload accumulation fails inside `_duration_hours`. -/
theorem workload_total_error (iid : String) :
    ∀ (existing : List Sched) (w : ℚ) (e : String),
    workload_total existing iid w = .error e → ∃ s t, duration_hours s t = .error e := by
  intro existing
  induction existing with
  | nil =>
    intro w e h
    rw [workload_total, List.foldlM_nil] at h
    exact Except.noConfusion h
  | cons a l ih =>
    intro w e h
    rw [workload_total, List.foldlM_cons] at h
    simp only [workload_step] at h
    by_cases hc : (!(get_instructor_ids a).contains iid) = true
    · rw [if_pos hc] at h
      simp only [pure, Except.pure, bind, Except.bind] at h
      exact ih w e h
    · rw [if_neg hc] at h
      by_cases ht : (a.hora_inicio != "" && a.hora_fim != "") = true
      · rw [if_pos ht] at h
        cases hd : duration_hours a.hora_inicio a.hora_fim with
        | error e1 =>
          rw [hd] at h
          simp only [bind, Except.bind] at h
          exact ⟨a.hora_inicio, a.hora_fim, hd.trans (congrArg Except.error (Except.error.inj h))⟩
        | ok d =>
          rw [hd] at h
          simp only [pure, Except.pure, bind, Except.bind] at h
          exact ih _ e h
      · rw [if_neg ht] at h
        simp only [pure, Except.pure, bind, Except.bind] at h
        exact ih w e h

/-- A failing `_validate_instructor_workload` never fails with a conflict
message. -/
theorem validate_instructor_workload_error_ne (instructors : List Instrutor)
    (existing : List Sched) (p : Sched) (e : String)
    (h : validate_instructor_workload instructors existing p = .error e) :
    e ≠ room_conflict_msg ∧ e ≠ instrutor_conflict_msg := by
  simp only [validate_instructor_workload] at h
  cases hd : duration_hours p.hora_inicio p.hora_fim with
  | error e1 =>
    rw [hd] at h
    simp only [bind, Except.bind] at h
    obtain rfl : e1 = e := Except.error.inj h
    rcases duration_hours_error_shape _ _ _ hd with hs | hs | hs <;> rw [hs]
    · exact horario_invalido_ne _
    · exact horario_invalido_ne _
    · exact ⟨by decide, by decide⟩
  | ok d =>
    rw [hd] at h
    simp only [bind, Except.bind] at h
    obtain ⟨iid, _, hiid⟩ := forM_error_mem _ _ _ h
    simp only [workload_one_check] at hiid
    cases hf : find_instrutor instructors iid with
    | none =>
      rw [hf] at hiid
      obtain rfl : _ = e := Except.error.inj hiid
      exact colaborador_ne iid
    | some instructor =>
      rw [hf] at hiid
      dsimp only at hiid
      cases hlim : instructor.max_horas_semana with
      | none =>
        rw [hlim] at hiid
        exact Except.noConfusion hiid
      | some limit =>
        rw [hlim] at hiid
        dsimp only at hiid
        cases hwt : workload_total existing iid (d * (p.dias_execucao.length : ℚ)) with
        | error e2 =>
          rw [hwt] at hiid
          simp only [bind, Except.bind] at hiid
          obtain rfl : e2 = e := Except.error.inj hiid
          obtain ⟨s, t, hst⟩ := workload_total_error iid existing _ e2 hwt
          rcases duration_hours_error_shape _ _ _ hst with hs | hs | hs <;> rw [hs]
          · exact horario_invalido_ne _
          · exact horario_invalido_ne _
          · exact ⟨by decide, by decide⟩
        | ok total =>
          rw [hwt] at hiid
          simp only [bind, Except.bind] at hiid
          by_cases hgt : total > limit
          · rw [if_pos hgt] at hiid
            obtain rfl : _ = e := Except.error.inj hiid
            exact ⟨by decide, by decide⟩
          · rw [if_neg hgt] at hiid
            exact Except.noConfusion hiid

/-- A failing availability month check fails with the availability message. -/
theorem avail_month_check_error_shape (avail : List AvailRecord)
    (sel req : List String) (iid : String) (ym : Nat × Nat × Ymd × Ymd) (e : String)
    (h : avail_month_check avail sel req iid ym = .error e) :
    ∃ m y ms, e = availability_message m y ms := by
  obtain ⟨y, m, ws, we⟩ := ym
  simp only [avail_month_check] at h
  split at h
  · exact Except.noConfusion h
  · split at h
    · exact Except.noConfusion h
    · split at h
      · exact ⟨m, y, _, (Except.error.inj h).symm⟩
      · exact Except.noConfusion h

/-- A failing `_validate_instructor_availability` never fails with a conflict
message. -/
theorem validate_instructor_availability_error_ne (avail : List AvailRecord)
    (p : Sched) (e : String)
    (h : validate_instructor_availability avail p = .error e) :
    e ≠ room_conflict_msg ∧ e ≠ instrutor_conflict_msg := by
  simp only [validate_instructor_availability] at h
  cases hd1 : parse_date p.data_inicio with
  | error e1 =>
    rw [hd1] at h
    simp only [bind, Except.bind] at h
    obtain rfl : e1 = e := Except.error.inj h
    rw [parse_date_error_shape _ _ hd1]
    exact data_invalida_ne _
  | ok di =>
    rw [hd1] at h
    simp only [bind, Except.bind] at h
    cases hd2 : parse_date p.data_fim with
    | error e2 =>
      rw [hd2] at h
      simp only [bind, Except.bind] at h
      obtain rfl : e2 = e := Except.error.inj h
      rw [parse_date_error_shape _ _ hd2]
      exact data_invalida_ne _
    | ok df =>
      rw [hd2] at h
      simp only [bind, Except.bind] at h
      split at h
      · exact Except.noConfusion h
      · split at h
        · exact Except.noConfusion h
        · split at h
          · exact Except.noConfusion h
          · obtain ⟨iid, _, hiid⟩ := forM_error_mem _ _ _ h
            obtain ⟨ym, _, hym⟩ := forM_error_mem _ _ _ hiid
            obtain ⟨mm, yy, ms, rfl⟩ := avail_month_check_error_shape _ _ _ _ _ _ hym
            exact availability_message_ne mm yy ms

/-- A failing `_validate_dates_and_times` never fails with a conflict
message. -/
theorem validate_dates_and_times_error_ne (p : Sched) (e : String)
    (h : validate_dates_and_times p = .error e) :
    e ≠ room_conflict_msg ∧ e ≠ instrutor_conflict_msg := by
  simp only [validate_dates_and_times] at h
  cases hd1 : parse_date p.data_inicio with
  | error e1 =>
    rw [hd1] at h
    simp only [bind, Except.bind] at h
    obtain rfl : e1 = e := Except.error.inj h
    rw [parse_date_error_shape _ _ hd1]
    exact data_invalida_ne _
  | ok di =>
    rw [hd1] at h
    simp only [bind, Except.bind] at h
    cases hd2 : parse_date p.data_fim with
    | error e2 =>
      rw [hd2] at h
      simp only [bind, Except.bind] at h
      obtain rfl : e2 = e := Except.error.inj h
      rw [parse_date_error_shape _ _ hd2]
      exact data_invalida_ne _
    | ok df =>
      rw [hd2] at h
      simp only [bind, Except.bind] at h
      split at h
      · obtain rfl : _ = e := Except.error.inj h
        exact ⟨by decide, by decide⟩
      · cases hdur : duration_hours p.hora_inicio p.hora_fim with
        | error e3 =>
          rw [hdur] at h
          simp only [bind, Except.bind] at h
          obtain rfl : e3 = e := Except.error.inj h
          rcases duration_hours_error_shape _ _ _ hdur with hs | hs | hs <;> rw [hs]
          · exact horario_invalido_ne _
          · exact horario_invalido_ne _
          · exact ⟨by decide, by decide⟩
        | ok d =>
          rw [hdur] at h
          simp only [bind, Except.bind] at h
          split at h
          · obtain rfl : _ = e := Except.error.inj h
            exact ⟨by decide, by decide⟩
          · split at h
            · obtain rfl : _ = e := Except.error.inj h
              exact ⟨by decide, by decide⟩
            · exact Except.noConfusion h

/-- Inversion of one scan step: a room/instructor conflict raised against
`item` implies parsed overlapping date ranges, an intersecting (or absent)
weekday set, an overlapping (or absent) daily window, and the matching room
or shared instructor. -/
theorem conflict_check_item_error_inv (pdays pinstr : List String) (sala : String)
    (ps pe : Ymd) (pst pet : Hm) (item : Sched) (e : String)
    (h : conflict_check_item pdays pinstr sala ps pe pst pet item = .error e)
    (he : e = room_conflict_msg ∨ e = instrutor_conflict_msg) :
    ∃ istart iend,
      parse_date item.data_inicio = .ok istart ∧ parse_date item.data_fim = .ok iend ∧
      date_ranges_overlap ps pe istart iend = true ∧
      ((∃ day, day ∈ pdays ∧ day ∈ item.dias_execucao) ∨ pdays = [] ∨
        item.dias_execucao = []) ∧
      (item.hora_inicio = "" ∨ item.hora_fim = "" ∨
        ∃ ist iet, parse_time item.hora_inicio = .ok ist ∧
          parse_time item.hora_fim = .ok iet ∧ times_overlap pst pet ist iet = true) ∧
      ((e = room_conflict_msg ∧ item.sala_id = sala) ∨
        (e = instrutor_conflict_msg ∧ item.sala_id ≠ sala ∧
          ∃ i, i ∈ pinstr ∧ i ∈ get_instructor_ids item)) := by
  simp only [conflict_check_item] at h
  split at h
  · exact Except.noConfusion h
  cases hd1 : parse_date item.data_inicio with
  | error e1 =>
    rw [hd1] at h
    simp only [bind, Except.bind] at h
    obtain rfl : e1 = e := Except.error.inj h
    rw [parse_date_error_shape _ _ hd1] at he
    rcases he with he | he
    · exact absurd he (data_invalida_ne _).1
    · exact absurd he (data_invalida_ne _).2
  | ok istart =>
    rw [hd1] at h
    simp only [bind, Except.bind] at h
    cases hd2 : parse_date item.data_fim with
    | error e2 =>
      rw [hd2] at h
      simp only [bind, Except.bind] at h
      obtain rfl : e2 = e := Except.error.inj h
      rw [parse_date_error_shape _ _ hd2] at he
      rcases he with he | he
      · exact absurd he (data_invalida_ne _).1
      · exact absurd he (data_invalida_ne _).2
    | ok iend =>
      rw [hd2] at h
      simp only [bind, Except.bind] at h
      by_cases hov : (!date_ranges_overlap ps pe istart iend) = true
      · rw [if_pos hov] at h
        exact Except.noConfusion h
      rw [if_neg hov] at h
      have hov' : date_ranges_overlap ps pe istart iend = true := by
        revert hov
        cases date_ranges_overlap ps pe istart iend <;> simp
      by_cases hwk : pdays ≠ [] ∧ item.dias_execucao ≠ [] ∧
          ¬ pdays.any (item.dias_execucao.contains ·)
      · rw [if_pos hwk] at h
        exact Except.noConfusion h
      rw [if_neg hwk] at h
      have hwk' : (∃ day, day ∈ pdays ∧ day ∈ item.dias_execucao) ∨ pdays = [] ∨
          item.dias_execucao = [] := by
        by_cases h1 : pdays = []
        · exact Or.inr (Or.inl h1)
        by_cases h2 : item.dias_execucao = []
        · exact Or.inr (Or.inr h2)
        have hany : pdays.any (item.dias_execucao.contains ·) = true := by
          by_contra hc
          exact hwk ⟨h1, h2, fun hx => hc hx⟩
        obtain ⟨day, hdm, hdc⟩ := List.any_eq_true.mp hany
        exact Or.inl ⟨day, hdm, List.elem_iff.mp hdc⟩
      refine ⟨istart, iend, rfl, rfl, hov', hwk', ?_⟩
      by_cases htp : (item.hora_inicio != "" && item.hora_fim != "") = true
      · rw [if_pos htp] at h
        cases ht1 : parse_time item.hora_inicio with
        | error e3 =>
          rw [ht1] at h
          simp only [bind, Except.bind] at h
          obtain rfl : e3 = e := Except.error.inj h
          rw [parse_time_error_shape _ _ ht1] at he
          rcases he with he | he
          · exact absurd he (horario_invalido_ne _).1
          · exact absurd he (horario_invalido_ne _).2
        | ok ist =>
          rw [ht1] at h
          simp only [bind, Except.bind] at h
          cases ht2 : parse_time item.hora_fim with
          | error e4 =>
            rw [ht2] at h
            simp only [bind, Except.bind] at h
            obtain rfl : e4 = e := Except.error.inj h
            rw [parse_time_error_shape _ _ ht2] at he
            rcases he with he | he
            · exact absurd he (horario_invalido_ne _).1
            · exact absurd he (horario_invalido_ne _).2
          | ok iet =>
            rw [ht2] at h
            simp only [pure, Except.pure, bind, Except.bind] at h
            by_cases hto : (!times_overlap pst pet ist iet) = true
            · rw [if_pos hto] at h
              exact Except.noConfusion h
            rw [if_neg hto] at h
            have hto' : times_overlap pst pet ist iet = true := by
              revert hto
              cases times_overlap pst pet ist iet <;> simp
            refine ⟨Or.inr (Or.inr ⟨ist, iet, rfl, rfl, hto'⟩), ?_⟩
            by_cases hsala : (item.sala_id == sala) = true
            · rw [if_pos hsala] at h
              exact Or.inl ⟨(Except.error.inj h).symm, eq_of_beq hsala⟩
            · rw [if_neg hsala] at h
              by_cases hany : pinstr.any ((get_instructor_ids item).contains ·) = true
              · rw [if_pos hany] at h
                obtain ⟨i, him, hic⟩ := List.any_eq_true.mp hany
                exact Or.inr ⟨(Except.error.inj h).symm,
                  fun heq => hsala (by rw [heq]; exact beq_self_eq_true sala),
                  ⟨i, him, List.elem_iff.mp hic⟩⟩
              · rw [if_neg hany] at h
                exact Except.noConfusion h
      · rw [if_neg htp] at h
        simp only [pure, Except.pure, bind, Except.bind] at h
        have hmiss : item.hora_inicio = "" ∨ item.hora_fim = "" := by
          by_contra hc
          push_neg at hc
          apply htp
          simp only [bne_iff_ne, Bool.and_eq_true, ne_eq]
          exact ⟨hc.1, hc.2⟩
        have hmiss' : item.hora_inicio = "" ∨ item.hora_fim = "" ∨
            ∃ ist iet, parse_time item.hora_inicio = .ok ist ∧
              parse_time item.hora_fim = .ok iet ∧ times_overlap pst pet ist iet = true := by
          rcases hmiss with hm | hm
          · exact Or.inl hm
          · exact Or.inr (Or.inl hm)
        refine ⟨hmiss', ?_⟩
        rw [if_neg (by decide : ¬(false = true))] at h
        by_cases hsala : (item.sala_id == sala) = true
        · rw [if_pos hsala] at h
          exact Or.inl ⟨(Except.error.inj h).symm, eq_of_beq hsala⟩
        · rw [if_neg hsala] at h
          by_cases hany : pinstr.any ((get_instructor_ids item).contains ·) = true
          · rw [if_pos hany] at h
            obtain ⟨i, him, hic⟩ := List.any_eq_true.mp hany
            exact Or.inr ⟨(Except.error.inj h).symm,
              fun heq => hsala (by rw [heq]; exact beq_self_eq_true sala),
              ⟨i, him, List.elem_iff.mp hic⟩⟩
          · rw [if_neg hany] at h
            exact Except.noConfusion h

/-- A room/instructor conflict raised by `_validate_conflicts` comes from the
per-offering scan, with the candidate's dates and times parsed. -/
theorem validate_conflicts_error_inv (instructors : List Instrutor)
    (avail : List AvailRecord) (existing : List Sched) (p : Sched) (e : String)
    (h : validate_conflicts instructors avail existing p = .error e)
    (he : e = room_conflict_msg ∨ e = instrutor_conflict_msg) :
    ∃ ps pe pst pet,
      parse_date p.data_inicio = .ok ps ∧ parse_date p.data_fim = .ok pe ∧
      parse_time p.hora_inicio = .ok pst ∧ parse_time p.hora_fim = .ok pet ∧
      conflict_scan p.dias_execucao (get_instructor_ids p) p.sala_id ps pe pst pet
        existing = .error e := by
  simp only [validate_conflicts] at h
  cases hd1 : parse_date p.data_inicio with
  | error e1 =>
    rw [hd1] at h
    simp only [bind, Except.bind] at h
    obtain rfl : e1 = e := Except.error.inj h
    rw [parse_date_error_shape _ _ hd1] at he
    rcases he with he | he
    · exact absurd he (data_invalida_ne _).1
    · exact absurd he (data_invalida_ne _).2
  | ok ps =>
    rw [hd1] at h
    simp only [bind, Except.bind] at h
    cases hd2 : parse_date p.data_fim with
    | error e2 =>
      rw [hd2] at h
      simp only [bind, Except.bind] at h
      obtain rfl : e2 = e := Except.error.inj h
      rw [parse_date_error_shape _ _ hd2] at he
      rcases he with he | he
      · exact absurd he (data_invalida_ne _).1
      · exact absurd he (data_invalida_ne _).2
    | ok pe =>
      rw [hd2] at h
      simp only [bind, Except.bind] at h
      split at h
      · obtain rfl : _ = e := Except.error.inj h
        rcases he with he | he
        · exact absurd he (by decide)
        · exact absurd he (by decide)
      · cases hv1 : validate_dates_and_times p with
        | error ev =>
          rw [hv1] at h
          simp only [bind, Except.bind] at h
          obtain rfl : ev = e := Except.error.inj h
          obtain ⟨n1, n2⟩ := validate_dates_and_times_error_ne p _ hv1
          rcases he with he | he
          · exact absurd he n1
          · exact absurd he n2
        | ok u1 =>
          rw [hv1] at h
          simp only [bind, Except.bind] at h
          cases hv2 : validate_instructor_availability avail p with
          | error ev =>
            rw [hv2] at h
            simp only [bind, Except.bind] at h
            obtain rfl : ev = e := Except.error.inj h
            obtain ⟨n1, n2⟩ := validate_instructor_availability_error_ne avail p _ hv2
            rcases he with he | he
            · exact absurd he n1
            · exact absurd he n2
          | ok u2 =>
            rw [hv2] at h
            simp only [bind, Except.bind] at h
            cases hv3 : validate_instructor_workload instructors existing p with
            | error ev =>
              rw [hv3] at h
              simp only [bind, Except.bind] at h
              obtain rfl : ev = e := Except.error.inj h
              obtain ⟨n1, n2⟩ := validate_instructor_workload_error_ne instructors existing p _ hv3
              rcases he with he | he
              · exact absurd he n1
              · exact absurd he n2
            | ok u3 =>
              rw [hv3] at h
              simp only [bind, Except.bind] at h
              cases ht1 : parse_time p.hora_inicio with
              | error e3 =>
                rw [ht1] at h
                simp only [bind, Except.bind] at h
                obtain rfl : e3 = e := Except.error.inj h
                rw [parse_time_error_shape _ _ ht1] at he
                rcases he with he | he
                · exact absurd he (horario_invalido_ne _).1
                · exact absurd he (horario_invalido_ne _).2
              | ok pst =>
                rw [ht1] at h
                simp only [bind, Except.bind] at h
                cases ht2 : parse_time p.hora_fim with
                | error e4 =>
                  rw [ht2] at h
                  simp only [bind, Except.bind] at h
                  obtain rfl : e4 = e := Except.error.inj h
                  rw [parse_time_error_shape _ _ ht2] at he
                  rcases he with he | he
                  · exact absurd he (horario_invalido_ne _).1
                  · exact absurd he (horario_invalido_ne _).2
                | ok pet =>
                  rw [ht2] at h
                  simp only [bind, Except.bind] at h
                  exact ⟨ps, pe, pst, pet, rfl, rfl, rfl, rfl, h⟩

/-- The conflict conditions exactly as claim C2 states them. -/
def c2_claimed_conditions (p item : Sched) : Prop :=
  ∃ ps pe istart iend pst pet ist iet,
    parse_date p.data_inicio = .ok ps ∧ parse_date p.data_fim = .ok pe ∧
    parse_date item.data_inicio = .ok istart ∧ parse_date item.data_fim = .ok iend ∧
    parse_time p.hora_inicio = .ok pst ∧ parse_time p.hora_fim = .ok pet ∧
    parse_time item.hora_inicio = .ok ist ∧ parse_time item.hora_fim = .ok iet ∧
    date_ranges_overlap ps pe istart iend = true ∧
    (∃ day, day ∈ p.dias_execucao ∧ day ∈ item.dias_execucao) ∧
    times_overlap pst pet ist iet = true ∧
    (item.sala_id = p.sala_id ∨ ∃ i, i ∈ get_instructor_ids p ∧ i ∈ get_instructor_ids item)

/-- The conflict conditions the code actually enforces: the weekday and
daily-window requirements are waived when the existing offering's weekday
list is empty or its time fields are missing. -/
def c2_actual_conditions (p item : Sched) (e : String) : Prop :=
  ∃ ps pe istart iend pst pet,
    parse_date p.data_inicio = .ok ps ∧ parse_date p.data_fim = .ok pe ∧
    parse_date item.data_inicio = .ok istart ∧ parse_date item.data_fim = .ok iend ∧
    parse_time p.hora_inicio = .ok pst ∧ parse_time p.hora_fim = .ok pet ∧
    date_ranges_overlap ps pe istart iend = true ∧
    ((∃ day, day ∈ p.dias_execucao ∧ day ∈ item.dias_execucao) ∨
      p.dias_execucao = [] ∨ item.dias_execucao = []) ∧
    (item.hora_inicio = "" ∨ item.hora_fim = "" ∨
      ∃ ist iet, parse_time item.hora_inicio = .ok ist ∧
        parse_time item.hora_fim = .ok iet ∧ times_overlap pst pet ist iet = true) ∧
    ((e = room_conflict_msg ∧ item.sala_id = p.sala_id) ∨
      (e = instrutor_conflict_msg ∧ item.sala_id ≠ p.sala_id ∧
        ∃ i, i ∈ get_instructor_ids p ∧ i ∈ get_instructor_ids item))

/-- An existing offering with an empty weekday list (spec Scenario fixtures,
room R1, 08:00-12:00). -/
def offNoDays : Sched := { offWedMorning with dias_execucao := [] }

/-- A candidate in the same room and window 08:00-12:00. -/
def offCandMorning : Sched := { offWedAfternoon with hora_inicio := "08:00", hora_fim := "12:00" }

/-- C2 fails as stated: a room conflict is raised against an existing
offering whose weekday set is empty, hence does not intersect the
candidate's — the code skips the weekday filter when the stored list is
empty, and likewise skips the time filter when the stored times are blank. -/
theorem c2_counterexample :
    ¬ (∀ (instructors : List Instrutor) (avail : List AvailRecord)
        (existing : List Sched) (p : Sched) (e : String),
        validate_conflicts instructors avail existing p = .error e →
        (e = room_conflict_msg ∨ e = instrutor_conflict_msg) →
        ∃ item, item ∈ existing ∧ c2_claimed_conditions p item) := by
  intro hclaim
  obtain ⟨item, hmem, hcond⟩ := hclaim instrFix [] [offNoDays] offCandMorning
    room_conflict_msg (by with_unfolding_all rfl) (Or.inl rfl)
  rw [List.mem_singleton] at hmem
  subst hmem
  obtain ⟨_, _, _, _, _, _, _, _, _, _, _, _, _, _, _, _, _, ⟨day, _, hday⟩, _⟩ := hcond
  exact absurd hday (List.not_mem_nil day)

/-- C2 amended: `_validate_conflicts` raises a room or instructor conflict
against an existing offering only if their date ranges overlap, their weekday
sets intersect (or the existing offering's weekday list is empty), their
daily time windows strictly overlap (or the existing offering's time fields
are blank), and the offerings share the room (room conflict) or an
instructor (instructor conflict). -/
theorem c2_amended_conflict_only_if (instructors : List Instrutor)
    (avail : List AvailRecord) (existing : List Sched) (p : Sched) (e : String)
    (h : validate_conflicts instructors avail existing p = .error e)
    (he : e = room_conflict_msg ∨ e = instrutor_conflict_msg) :
    ∃ item, item ∈ existing ∧ c2_actual_conditions p item e := by
  obtain ⟨ps, pe, pst, pet, hd1, hd2, ht1, ht2, hscan⟩ :=
    validate_conflicts_error_inv instructors avail existing p e h he
  rw [conflict_scan] at hscan
  obtain ⟨item, hmem, hitem⟩ := forM_error_mem _ _ _ hscan
  obtain ⟨istart, iend, hi1, hi2, hov, hwk, htw, hlast⟩ :=
    conflict_check_item_error_inv p.dias_execucao (get_instructor_ids p) p.sala_id
      ps pe pst pet item e hitem he
  exact ⟨item, hmem, ps, pe, istart, iend, pst, pet,
    hd1, hd2, hi1, hi2, ht1, ht2, hov, hwk, htw, hlast⟩

/-- Witness for `c2_amended_conflict_only_if` at a concrete input. -/
theorem c2_amended_witness :
    validate_conflicts instrFix [] [offWedMorningLong] offWedAfternoon =
      .error room_conflict_msg ∧
    ∃ item, item ∈ [offWedMorningLong] ∧
      c2_actual_conditions offWedAfternoon item room_conflict_msg :=
  ⟨by with_unfolding_all rfl,
   c2_amended_conflict_only_if instrFix [] [offWedMorningLong] offWedAfternoon
     room_conflict_msg (by with_unfolding_all rfl) (Or.inl rfl)⟩

/-! ## Availability fallback order (C3) -/

/-- One step of the fallback candidate loop, when the period normalises. -/
theorem first_avail_aux_cons (avail : List AvailRecord) (iid : String) (year : Nat)
    (pt pv nt nv : String) (rest : List (String × String))
    (hn : normalize_period pt pv = .ok (nt, nv)) :
    first_avail_aux avail iid year ((pt, pv) :: rest) =
      (get_by_context avail iid year nt nv <|> first_avail_aux avail iid year rest) := by
  simp only [first_avail_aux, hn]
  cases get_by_context avail iid year nt nv <;> rfl

/-- The spec-side fallback order of C3: month, then quarter `⌈month/3⌉`, then
semester (1 = Jan-Jun, 2 = Jul-Dec), then full year; first record found
wins. -/
def fallback_record (avail : List AvailRecord) (iid : String) (year month : Nat) :
    Option AvailRecord :=
  get_by_context avail iid year "month" (toString month) <|>
  get_by_context avail iid year "quarter" (toString ((month + 2) / 3)) <|>
  get_by_context avail iid year "semester" (if month ≤ 6 then "1" else "2") <|>
  get_by_context avail iid year "year" "A"

/-- Appending an empty fallback changes nothing. -/
theorem orElse_none_avail (o : Option AvailRecord) : (o <|> none) = o := by
  cases o <;> rfl

/-- C3: the availability record consulted follows the fallback order month →
quarter (= ⌈month/3⌉) → semester → year, first record found winning; in
particular a quarter-only record lacking a required slot rejects the July
offering, while adding a month-level July record that contains the slot makes
it accepted (month overrides quarter). -/
theorem c3_fallback_order :
    (∀ (avail : List AvailRecord) (iid : String) (year month : Nat),
      1 ≤ month → month ≤ 12 →
      first_availability_record avail iid year month = fallback_record avail iid year month) ∧
    validate_instructor_availability [⟨"i1|2024|quarter|3", ["TER|T1"]⟩] offWedAfternoon =
      .error (availability_message 7 2024 ["QUA|T1"]) ∧
    validate_instructor_availability
      [⟨"i1|2024|month|7", ["QUA|T1"]⟩, ⟨"i1|2024|quarter|3", ["TER|T1"]⟩] offWedAfternoon =
      .ok () := by
  refine ⟨?_, by with_unfolding_all rfl, by with_unfolding_all rfl⟩
  intro avail iid year month h1 h12
  interval_cases month <;>
    (simp only [first_availability_record, availability_candidates_for_month, fallback_record]
     rw [first_avail_aux_cons _ _ _ _ _ _ _ _ (by with_unfolding_all rfl),
       first_avail_aux_cons _ _ _ _ _ _ _ _ (by with_unfolding_all rfl),
       first_avail_aux_cons _ _ _ _ _ _ _ _ (by with_unfolding_all rfl),
       first_avail_aux_cons _ _ _ _ _ _ _ _ (by with_unfolding_all rfl)]
     simp only [first_avail_aux, orElse_none_avail]
     with_unfolding_all rfl)

/-- Witness for the fallback-order part of `c3_fallback_order` at a concrete
input. -/
theorem c3_witness :
    (1 : Nat) ≤ 7 ∧ (7 : Nat) ≤ 12 ∧
    first_availability_record [⟨"i1|2024|month|7", ["QUA|T1"]⟩] "i1" 2024 7 =
      fallback_record [⟨"i1|2024|month|7", ["QUA|T1"]⟩] "i1" 2024 7 :=
  ⟨by decide, by decide,
   c3_fallback_order.1 [⟨"i1|2024|month|7", ["QUA|T1"]⟩] "i1" 2024 7 (by decide) (by decide)⟩

/-! ## Availability: absence permits, rejection names the missing slots (C8) -/

/-- The validator's canonicalised selected weekday tokens. -/
def selected_weekdays_of (p : Sched) : List String :=
  (p.dias_execucao.map canonical_weekday).filter (· != "")

/-- The validator's required `{weekday}|{shift}` slot set. -/
def required_slots_of (p : Sched) : List String :=
  dedupFirst ((selected_weekdays_of p).map (fun day => day ++ "|" ++ p.turno_id.trim))

/-- C8: a month with no availability record at any granularity is silently
permitted, and the validator rejects only when some spanned month with a
selected execution weekday has a record whose declared slots miss some
required slot — and then the error is exactly the message naming the missing
slots and the offending month/year. -/
theorem c8_absence_permits_rejection_names :
    (∀ (avail : List AvailRecord) (sel req : List String) (iid : String)
       (y m : Nat) (ws we : Ymd),
       first_availability_record avail iid y m = none →
       avail_month_check avail sel req iid (y, m, ws, we) = .ok ()) ∧
    (∀ (avail : List AvailRecord) (p : Sched) (e : String) (ps pe : Ymd),
       parse_date p.data_inicio = .ok ps → parse_date p.data_fim = .ok pe →
       validate_instructor_availability avail p = .error e →
       ∃ iid, iid ∈ get_instructor_ids p ∧
       ∃ y m ws we, (y, m, ws, we) ∈ month_ranges_between ps pe ∧
         ((selected_weekdays_of p).any (fun day =>
           match weekday_to_index day with
           | some idx => has_weekday_between ws we idx
           | none => false)) = true ∧
       ∃ record, first_availability_record avail iid y m = some record ∧
         (required_slots_of p).filter (fun slot =>
           !((record.slots.map normalize_slot).contains (charReplace 'Á' 'A' slot))) ≠ [] ∧
         e = availability_message m y ((required_slots_of p).filter (fun slot =>
           !((record.slots.map normalize_slot).contains (charReplace 'Á' 'A' slot))))) := by
  constructor
  · intro avail sel req iid y m ws we hrec
    simp only [avail_month_check]
    split
    · rfl
    · rw [hrec]
  · intro avail p e ps pe hd1 hd2 h
    simp only [validate_instructor_availability] at h
    rw [hd1] at h
    simp only [bind, Except.bind] at h
    rw [hd2] at h
    simp only [bind, Except.bind] at h
    split at h
    · exact Except.noConfusion h
    split at h
    · exact Except.noConfusion h
    split at h
    · exact Except.noConfusion h
    obtain ⟨iid, hiid, hmonths⟩ := forM_error_mem _ _ _ h
    obtain ⟨ym, hym, hcheck⟩ := forM_error_mem _ _ _ hmonths
    obtain ⟨y, m, ws, we⟩ := ym
    refine ⟨iid, hiid, y, m, ws, we, hym, ?_⟩
    simp only [avail_month_check] at hcheck
    split at hcheck
    · exact Except.noConfusion hcheck
    next hhas =>
      have hhas' : ((selected_weekdays_of p).any (fun day =>
          match weekday_to_index day with
          | some idx => has_weekday_between ws we idx
          | none => false)) = true := by
        simp only [selected_weekdays_of]
        revert hhas
        cases ((p.dias_execucao.map canonical_weekday).filter (· != "")).any (fun day =>
          match weekday_to_index day with
          | some idx => has_weekday_between ws we idx
          | none => false) <;> simp
      refine ⟨hhas', ?_⟩
      cases hrec : first_availability_record avail iid y m with
      | none =>
        rw [hrec] at hcheck
        exact Except.noConfusion hcheck
      | some record =>
        rw [hrec] at hcheck
        dsimp only at hcheck
        split at hcheck
        next hmiss =>
          refine ⟨record, rfl, ?_, ?_⟩
          · simpa [required_slots_of, selected_weekdays_of] using hmiss
          · have := Except.error.inj hcheck
            simp only [required_slots_of, selected_weekdays_of]
            exact this.symm
        next =>
          exact Except.noConfusion hcheck

/-- Witness for `c8_absence_permits_rejection_names` at concrete inputs. -/
theorem c8_witness :
    first_availability_record [] "i1" 2024 7 = none ∧
    avail_month_check [] ["QUA"] ["QUA|T1"] "i1" (2024, 7, ⟨2024, 7, 1⟩, ⟨2024, 7, 31⟩) =
      .ok () ∧
    parse_date offWedAfternoon.data_inicio = .ok ⟨2024, 7, 1⟩ ∧
    parse_date offWedAfternoon.data_fim = .ok ⟨2024, 7, 31⟩ ∧
    validate_instructor_availability [⟨"i1|2024|quarter|3", ["TER|T1"]⟩] offWedAfternoon =
      .error (availability_message 7 2024 ["QUA|T1"]) ∧
    (∃ iid, iid ∈ get_instructor_ids offWedAfternoon ∧
     ∃ y m ws we, (y, m, ws, we) ∈ month_ranges_between ⟨2024, 7, 1⟩ ⟨2024, 7, 31⟩ ∧
       ((selected_weekdays_of offWedAfternoon).any (fun day =>
         match weekday_to_index day with
         | some idx => has_weekday_between ws we idx
         | none => false)) = true ∧
     ∃ record, first_availability_record [⟨"i1|2024|quarter|3", ["TER|T1"]⟩] iid y m =
         some record ∧
       (required_slots_of offWedAfternoon).filter (fun slot =>
         !((record.slots.map normalize_slot).contains (charReplace 'Á' 'A' slot))) ≠ [] ∧
       availability_message 7 2024 ["QUA|T1"] = availability_message m y
         ((required_slots_of offWedAfternoon).filter (fun slot =>
           !((record.slots.map normalize_slot).contains (charReplace 'Á' 'A' slot))))) :=
  ⟨by with_unfolding_all rfl,
   c8_absence_permits_rejection_names.1 [] ["QUA"] ["QUA|T1"] "i1" 2024 7
     ⟨2024, 7, 1⟩ ⟨2024, 7, 31⟩ (by with_unfolding_all rfl),
   by with_unfolding_all rfl,
   by with_unfolding_all rfl,
   by with_unfolding_all rfl,
   c8_absence_permits_rejection_names.2 [⟨"i1|2024|quarter|3", ["TER|T1"]⟩] offWedAfternoon
     (availability_message 7 2024 ["QUA|T1"]) ⟨2024, 7, 1⟩ ⟨2024, 7, 31⟩
     (by with_unfolding_all rfl) (by with_unfolding_all rfl) (by with_unfolding_all rfl)⟩

/-! ## Workload ceiling (C4) -/

/-- Weekly hours one stored offering contributes:
`duration_hours × len(dias_execucao)`. -/
def item_weekly_hours (item : Sched) : ℚ :=
  match duration_hours item.hora_inicio item.hora_fim with
  | .ok d => d * (item.dias_execucao.length : ℚ)
  | .error _ => 0

/-- The hours the workload loop adds for one instructor: summed over the
existing offerings that list the instructor and carry both time fields. -/
def instructor_existing_hours (existing : List Sched) (iid : String) : ℚ :=
  ((existing.filter (fun item => (get_instructor_ids item).contains iid &&
      (item.hora_inicio != "" && item.hora_fim != ""))).map item_weekly_hours).sum

/-- The workload accumulation computes the candidate's weekly hours plus the
instructor's existing weekly hours, when every counted offering's times
parse. -/
theorem workload_total_eq (iid : String) :
    ∀ (existing : List Sched),
    (∀ item ∈ existing, ((get_instructor_ids item).contains iid &&
        (item.hora_inicio != "" && item.hora_fim != "")) = true →
      ∃ di, duration_hours item.hora_inicio item.hora_fim = .ok di) →
    ∀ w, workload_total existing iid w = .ok (w + instructor_existing_hours existing iid) := by
  intro existing
  induction existing with
  | nil =>
    intro _ w
    rw [workload_total, List.foldlM_nil, instructor_existing_hours]
    simp [pure, Except.pure]
  | cons a l ih =>
    intro hok w
    have hok' := fun item hm hr => hok item (List.mem_cons_of_mem a hm) hr
    rw [workload_total, List.foldlM_cons]
    by_cases hc : ((get_instructor_ids a).contains iid) = true
    · by_cases ht : (a.hora_inicio != "" && a.hora_fim != "") = true
      · obtain ⟨di, hdi⟩ := hok a (List.mem_cons_self a l) (by rw [hc, ht]; rfl)
        have hstep : workload_step iid w a = .ok (w + di * (a.dias_execucao.length : ℚ)) := by
          rw [workload_step, if_neg (by rw [hc]; decide), if_pos ht, hdi]
          rfl
        rw [hstep]
        simp only [bind, Except.bind]
        have hl := ih hok' (w + di * (a.dias_execucao.length : ℚ))
        rw [workload_total] at hl
        rw [hl]
        have hfa : instructor_existing_hours (a :: l) iid =
            item_weekly_hours a + instructor_existing_hours l iid := by
          simp only [instructor_existing_hours, List.filter_cons]
          rw [hc, ht]
          simp
        have hwa : item_weekly_hours a = di * (a.dias_execucao.length : ℚ) := by
          simp only [item_weekly_hours, hdi]
        rw [hfa, hwa, add_assoc]
      · have htf : (a.hora_inicio != "" && a.hora_fim != "") = false := by
          revert ht
          cases a.hora_inicio != "" && a.hora_fim != "" <;> simp
        have hstep : workload_step iid w a = .ok w := by
          rw [workload_step, if_neg (by rw [hc]; decide), if_neg ht]
          rfl
        rw [hstep]
        simp only [bind, Except.bind]
        have hl := ih hok' w
        rw [workload_total] at hl
        rw [hl]
        have hfa : instructor_existing_hours (a :: l) iid = instructor_existing_hours l iid := by
          simp only [instructor_existing_hours, List.filter_cons]
          rw [hc, htf]
          simp
        rw [hfa]
    · have hcf : (get_instructor_ids a).contains iid = false := by
        revert hc
        cases (get_instructor_ids a).contains iid <;> simp
      have hstep : workload_step iid w a = .ok w := by
        rw [workload_step, if_pos (by rw [hcf]; decide)]
        rfl
      rw [hstep]
      simp only [bind, Except.bind]
      have hl := ih hok' w
      rw [workload_total] at hl
      rw [hl]
      have hfa : instructor_existing_hours (a :: l) iid = instructor_existing_hours l iid := by
        simp only [instructor_existing_hours, List.filter_cons]
        rw [hcf]
        simp
      rw [hfa]

/-- Per-instructor characterization of the workload check, given that every
counted offering's times parse. -/
theorem workload_one_check_eq (instructors : List Instrutor) (existing : List Sched)
    (w : ℚ) (iid : String)
    (hok : ∀ item ∈ existing, (item.hora_inicio != "" && item.hora_fim != "") = true →
      ∃ di, duration_hours item.hora_inicio item.hora_fim = .ok di) :
    workload_one_check instructors existing w iid =
      (match find_instrutor instructors iid with
       | none => .error ("Colaborador nao encontrado: " ++ iid)
       | some instructor =>
         match instructor.max_horas_semana with
         | none => .ok ()
         | some limit =>
           if w + instructor_existing_hours existing iid > limit then
             .error "Limite de carga horaria semanal excedido para o colaborador."
           else .ok ()) := by
  rw [workload_one_check]
  cases find_instrutor instructors iid with
  | none => rfl
  | some instructor =>
    dsimp only
    cases hcap : instructor.max_horas_semana with
    | none => rfl
    | some limit =>
      dsimp only
      have hok' : ∀ item ∈ existing, ((get_instructor_ids item).contains iid &&
          (item.hora_inicio != "" && item.hora_fim != "")) = true →
          ∃ di, duration_hours item.hora_inicio item.hora_fim = .ok di :=
        fun item hm hr => hok item hm (Bool.and_eq_true_iff.mp hr).2
      rw [workload_total_eq iid existing hok' w]
      simp only [bind, Except.bind]

/-- The existing-hours sum over `N` copies of one relevant offering. -/
theorem instructor_existing_hours_replicate (item : Sched) (iid : String)
    (hrel : ((get_instructor_ids item).contains iid &&
      (item.hora_inicio != "" && item.hora_fim != "")) = true) :
    ∀ N : Nat, instructor_existing_hours (List.replicate N item) iid =
      (N : ℚ) * item_weekly_hours item := by
  intro N
  induction N with
  | zero => simp [instructor_existing_hours]
  | succ n ihn =>
    rw [List.replicate_succ]
    have : instructor_existing_hours (item :: List.replicate n item) iid =
        item_weekly_hours item + instructor_existing_hours (List.replicate n item) iid := by
      simp only [instructor_existing_hours, List.filter_cons, hrel]
      simp
    rw [this, ihn]
    push_cast
    ring

/-- C4: the workload validator charges each instructor
`duration_hours × len(dias_execucao)` for the candidate plus the same
formula over every existing offering that lists the instructor with time
fields present, skips instructors with no configured cap, and rejects
exactly when the sum strictly exceeds the cap; in particular with a cap `H`
and `N` existing copies of an offering worth `h` weekly hours, the candidate
worth `h` is accepted iff `(N+1)·h ≤ H`. -/
theorem c4_workload_cap :
    (∀ (instructors : List Instrutor) (existing : List Sched) (p : Sched) (d : ℚ),
      duration_hours p.hora_inicio p.hora_fim = .ok d →
      (∀ item ∈ existing, (item.hora_inicio != "" && item.hora_fim != "") = true →
        ∃ di, duration_hours item.hora_inicio item.hora_fim = .ok di) →
      validate_instructor_workload instructors existing p =
        (get_instructor_ids p).forM (fun iid =>
          match find_instrutor instructors iid with
          | none => .error ("Colaborador nao encontrado: " ++ iid)
          | some instructor =>
            match instructor.max_horas_semana with
            | none => .ok ()
            | some limit =>
              if d * (p.dias_execucao.length : ℚ) +
                  instructor_existing_hours existing iid > limit then
                .error "Limite de carga horaria semanal excedido para o colaborador."
              else .ok ())) ∧
    (∀ (instructors : List Instrutor) (item p : Sched) (iid role : String)
       (H h d : ℚ) (N : Nat),
      find_instrutor instructors iid = some ⟨iid, role, some H⟩ →
      get_instructor_ids p = [iid] →
      duration_hours p.hora_inicio p.hora_fim = .ok d →
      d * (p.dias_execucao.length : ℚ) = h →
      ((get_instructor_ids item).contains iid &&
        (item.hora_inicio != "" && item.hora_fim != "")) = true →
      item_weekly_hours item = h →
      (∃ di, duration_hours item.hora_inicio item.hora_fim = .ok di) →
      (validate_instructor_workload instructors (List.replicate N item) p = .ok () ↔
        ((N : ℚ) + 1) * h ≤ H)) := by
  constructor
  · intro instructors existing p d hd hok
    rw [validate_instructor_workload, hd]
    simp only [bind, Except.bind]
    rw [workload_instructors_check]
    congr 1
    funext iid
    exact workload_one_check_eq instructors existing _ iid hok
  · intro instructors item p iid role H h d N hfind hids hd hweek hrel hitemw hdi
    rw [validate_instructor_workload, hd]
    simp only [bind, Except.bind]
    rw [workload_instructors_check, hids, forM_cons_except]
    have hok : ∀ it ∈ List.replicate N item,
        (it.hora_inicio != "" && it.hora_fim != "") = true →
        ∃ di, duration_hours it.hora_inicio it.hora_fim = .ok di := by
      intro it hm _
      rw [List.eq_of_mem_replicate hm]
      exact hdi
    rw [workload_one_check_eq instructors (List.replicate N item) _ iid hok, hfind]
    simp only
    rw [instructor_existing_hours_replicate item iid hrel N, hitemw, hweek]
    have harith : h + (N : ℚ) * h = ((N : ℚ) + 1) * h := by ring
    rw [harith]
    by_cases hgt : ((N : ℚ) + 1) * h > H
    · rw [if_pos hgt]
      exact iff_of_false (fun hcontra => Except.noConfusion hcontra) (not_le.mpr hgt)
    · rw [if_neg hgt]
      exact iff_of_true rfl (not_lt.mp hgt)

/-- One instructor with a 20-hour weekly cap (spec Scenario 4). -/
def instrCap20 : List Instrutor := [⟨"i1", "Instrutor", some 20⟩]

/-- An offering worth 4 hours/day on five weekdays, i.e. 20 weekly hours. -/
def offDaily4h : Sched :=
  { offWedAfternoon with
      hora_inicio := "08:00", hora_fim := "12:00",
      dias_execucao := ["SEG", "TER", "QUA", "QUI", "SEX"] }

/-- Witness for `c4_workload_cap` at a concrete input: one existing copy of a
20-hour offering plus the 20-hour candidate exceeds the 20-hour cap. -/
theorem c4_witness :
    find_instrutor instrCap20 "i1" = some ⟨"i1", "Instrutor", some 20⟩ ∧
    get_instructor_ids offDaily4h = ["i1"] ∧
    duration_hours offDaily4h.hora_inicio offDaily4h.hora_fim = .ok 4 ∧
    (4 : ℚ) * (offDaily4h.dias_execucao.length : ℚ) = 20 ∧
    ((get_instructor_ids offDaily4h).contains "i1" &&
      (offDaily4h.hora_inicio != "" && offDaily4h.hora_fim != "")) = true ∧
    item_weekly_hours offDaily4h = 20 ∧
    (validate_instructor_workload instrCap20 (List.replicate 1 offDaily4h) offDaily4h =
        .ok () ↔ (((1 : Nat) : ℚ) + 1) * 20 ≤ 20) :=
  ⟨by with_unfolding_all rfl, by with_unfolding_all rfl, by with_unfolding_all rfl,
   by with_unfolding_all rfl, by with_unfolding_all rfl, by with_unfolding_all rfl,
   c4_workload_cap.2 instrCap20 offDaily4h offDaily4h "i1" "Instrutor" 20 20 4 1
     (by with_unfolding_all rfl) (by with_unfolding_all rfl) (by with_unfolding_all rfl)
     (by with_unfolding_all rfl) (by with_unfolding_all rfl) (by with_unfolding_all rfl)
     ⟨4, by with_unfolding_all rfl⟩⟩

/-! ## Create/update: all validation precedes the single write (C9) -/

/-- C9: `create_schedule` and (validating) `update_schedule` succeed exactly
when every validation step passes on the normalized payload, and the
schedules list handed to `save_items` is then the one whole-collection
write — the old collection plus the new record (resp. with the merged record
in place); an error from any step yields an error result, so `save_items` is
never reached and the persisted collection is unchanged. -/
theorem c9_validation_before_single_write :
    (∀ (stores : Stores) (nowYear : Nat) (p : Sched) (r : List Sched × Sched),
      create_schedule stores nowYear p = .ok r ↔
      ∃ p2, normalize_dates (normalize_instructors
          (if p.id = "" then
            { p with id := next_offer_id stores.schedules (resolve_year p.ano nowYear) }
          else p)) = .ok p2 ∧
        require_sched_fields p2 = .ok () ∧
        ensure_unique_id stores.schedules p2.id = .ok () ∧
        validate_references stores p2 = .ok () ∧
        validate_conflicts stores.instructors stores.availability stores.schedules p2 =
          .ok () ∧
        r = (stores.schedules ++ [p2], p2)) ∧
    (∀ (stores : Stores) (sid : String) (upd : Sched → Sched) (r : List Sched × Sched),
      update_schedule stores sid upd true = .ok r ↔
      ∃ s0 s2, find_sched stores.schedules sid = some s0 ∧
        normalize_dates (normalize_instructors (upd s0)) = .ok s2 ∧
        require_sched_fields s2 = .ok () ∧
        validate_references stores s2 = .ok () ∧
        validate_conflicts stores.instructors stores.availability
          ((set_first_by_id stores.schedules sid s2).filter (fun it => it.id != sid)) s2 =
          .ok () ∧
        r = (set_first_by_id stores.schedules sid s2, s2)) := by
  constructor
  · intro stores nowYear p r
    constructor
    · intro h
      simp only [create_schedule] at h
      cases hn : normalize_dates (normalize_instructors
          (if p.id = "" then
            { p with id := next_offer_id stores.schedules (resolve_year p.ano nowYear) }
          else p)) with
      | error e => rw [hn] at h; simp only [bind, Except.bind] at h; exact Except.noConfusion h
      | ok p2 =>
        rw [hn] at h
        simp only [bind, Except.bind] at h
        cases hreq : require_sched_fields p2 with
        | error e => rw [hreq] at h; exact Except.noConfusion h
        | ok u1 =>
          cases u1
          rw [hreq] at h
          cases huniq : ensure_unique_id stores.schedules p2.id with
          | error e => rw [huniq] at h; exact Except.noConfusion h
          | ok u2 =>
            cases u2
            rw [huniq] at h
            cases href : validate_references stores p2 with
            | error e => rw [href] at h; exact Except.noConfusion h
            | ok u3 =>
              cases u3
              rw [href] at h
              cases hconf : validate_conflicts stores.instructors stores.availability
                  stores.schedules p2 with
              | error e => rw [hconf] at h; exact Except.noConfusion h
              | ok u4 =>
                cases u4
                rw [hconf] at h
                exact ⟨p2, rfl, hreq, huniq, href, hconf, (Except.ok.inj h).symm⟩
    · rintro ⟨p2, hn, hreq, huniq, href, hconf, rfl⟩
      simp only [create_schedule]
      rw [hn]
      simp only [bind, Except.bind]
      rw [hreq, huniq, href, hconf]
      rfl
  · intro stores sid upd r
    constructor
    · intro h
      simp only [update_schedule] at h
      cases hf : find_sched stores.schedules sid with
      | none => rw [hf] at h; exact Except.noConfusion h
      | some s0 =>
        rw [hf] at h
        dsimp only at h
        cases hn : normalize_dates (normalize_instructors (upd s0)) with
        | error e => rw [hn] at h; simp only [bind, Except.bind] at h; exact Except.noConfusion h
        | ok s2 =>
          rw [hn] at h
          simp only [bind, Except.bind] at h
          cases hreq : require_sched_fields s2 with
          | error e => rw [hreq] at h; exact Except.noConfusion h
          | ok u1 =>
            cases u1
            rw [hreq] at h
            cases href : validate_references stores s2 with
            | error e => rw [href] at h; exact Except.noConfusion h
            | ok u2 =>
              cases u2
              rw [href] at h
              cases hconf : validate_conflicts stores.instructors stores.availability
                  ((set_first_by_id stores.schedules sid s2).filter
                    (fun it => it.id != sid)) s2 with
              | error e => rw [hconf] at h; exact Except.noConfusion h
              | ok u3 =>
                cases u3
                rw [hconf] at h
                exact ⟨s0, s2, rfl, hn, hreq, href, hconf, (Except.ok.inj h).symm⟩
    · rintro ⟨s0, s2, hf, hn, hreq, href, hconf, rfl⟩
      simp only [update_schedule]
      rw [hf]
      dsimp only
      rw [hn]
      simp only [bind, Except.bind]
      rw [hreq, href, hconf]
      rfl

/-- A store with every referenced entity present and no existing offerings. -/
def storesFix : Stores := {
  courses := ["C1"]
  instructors := [⟨"i1", "Instrutor", none⟩, ⟨"a1", "Analista", none⟩]
  rooms := ["R1"]
  shifts := ["T1"]
  availability := []
  schedules := []
}

/-- A fully-populated valid creation payload. -/
def payCreate : Sched :=
  { offWedAfternoon with
      id := "01/2024", curso_id := "C1", ano := "2024", mes := "7",
      analista_id := "a1", pavimento := "0", qtd_alunos := "20", ch_total := "80" }

/-- The normalized form of `payCreate` (instructor list canonicalised). -/
def payCreateNorm : Sched := { payCreate with instrutor_ids := ["i1"] }

/-- Witness for `c9_validation_before_single_write` at a concrete input. -/
theorem c9_witness :
    create_schedule storesFix 2024 payCreate =
      .ok (storesFix.schedules ++ [payCreateNorm], payCreateNorm) ∧
    (∃ p2, normalize_dates (normalize_instructors
        (if payCreate.id = "" then
          { payCreate with
              id := next_offer_id storesFix.schedules (resolve_year payCreate.ano 2024) }
        else payCreate)) = .ok p2 ∧
      require_sched_fields p2 = .ok () ∧
      ensure_unique_id storesFix.schedules p2.id = .ok () ∧
      validate_references storesFix p2 = .ok () ∧
      validate_conflicts storesFix.instructors storesFix.availability
        storesFix.schedules p2 = .ok () ∧
      (storesFix.schedules ++ [payCreateNorm], payCreateNorm) =
        (storesFix.schedules ++ [p2], p2)) :=
  ⟨by with_unfolding_all rfl,
   (c9_validation_before_single_write.1 storesFix 2024 payCreate
     (storesFix.schedules ++ [payCreateNorm], payCreateNorm)).mp
     (by with_unfolding_all rfl)⟩
